import Mathlib

/-!
Verification of the tasky-ai task store and webhook validation layer.

The definitions below are a shallow embedding of the Python sources:

* `src/tasky_agent/utils.py` (`parse_date`, `validate_uuid`)
* `src/tasky_agent/tools/create_tasks.py` (`TaskInput` validators, `create_tasks`)
* `src/tasky_agent/tools/get_tasks.py` (`GetTaskInput`, `get_tasks`)
* `src/tasky_agent/tools/update_tasks.py` (`TaskUpdateInput`, `update_tasks`)
* `src/tasky_agent/tools/delete_tasks.py` (`delete_tasks`)
* `src/api_server/utils.py` (`verify_whatsapp_signature`)
* `src/api_server/database.py` (`get_users_tasks_by_date`)
* `src/services/daily_summary.py` (`send_daily_summary`)

The Supabase table `tasks` is modelled as a `List TaskRow`; every query the
code builds with `.eq`/`.contains`/`.insert`/`.update`/`.delete` is embedded
as the corresponding pure list transformation.  Machine integers do not occur
except in the SHA-256 compression function, where 32-bit words are `Nat`
reduced modulo `2 ^ 32` explicitly.
-/

namespace Tasky

/-! ### Character and string helpers (Python `str` primitives) -/

/-- Python whitespace test for `str.strip` (ASCII range). -/
def isPySpace (c : Char) : Bool :=
  c = ' ' ∨ c = '\t' ∨ c = '\n' ∨ c = '\r' ∨ c = '\x0b' ∨ c = '\x0c'

/-- Python `str.strip()` on a character list. -/
def stripChars (l : List Char) : List Char :=
  ((l.dropWhile isPySpace).reverse.dropWhile isPySpace).reverse

/-- Python `str.strip()`. -/
def pyStrip (s : String) : String := ⟨stripChars s.data⟩

/-- Python `str.split(sep)` for a one-character separator, on char lists. -/
def splitOnChar (c : Char) : List Char → List (List Char)
  | [] => [[]]
  | x :: xs =>
    if x = c then [] :: splitOnChar c xs
    else
      match splitOnChar c xs with
      | [] => [[x]]
      | h :: t => (x :: h) :: t

/-- All-decimal-digit test. -/
def allDigits (l : List Char) : Bool := l.all Char.isDigit

/-- Decimal value of a digit list. -/
def digitsToNat (l : List Char) : Nat :=
  l.foldl (fun a c => a * 10 + (c.toNat - '0'.toNat)) 0

/-! ### `parse_date` (src/tasky_agent/utils.py)

`parse_date` calls `datetime.strptime` with format `%Y-%m-%d %H:%M:%S` when
the string contains a space and `%Y-%m-%d` otherwise.  CPython's `strptime`
matches `%Y` against exactly four digits, `%m` against 1-12, `%d` against
1-31, `%H` against 0-23, `%M`/`%S` against 0-59 (each at most two digits),
and the `datetime` constructor additionally rejects year 0 and days beyond
the month length. -/

deriving instance DecidableEq for Except

structure PyDateTime where
  year : Nat
  month : Nat
  day : Nat
  hour : Nat
  minute : Nat
  second : Nat
  deriving DecidableEq, Repr

/-- Gregorian leap year. -/
def isLeap (y : Nat) : Bool := y % 4 = 0 ∧ (y % 100 ≠ 0 ∨ y % 400 = 0)

/-- Days in a month. -/
def daysInMonth (y m : Nat) : Nat :=
  if m = 2 then (if isLeap y then 29 else 28)
  else if m = 4 ∨ m = 6 ∨ m = 9 ∨ m = 11 then 30
  else 31

/-- A numeric field of at most two digits whose value lies in `[lo, hi]`. -/
def parseField2 (lo hi : Nat) (l : List Char) : Option Nat :=
  if allDigits l ∧ 1 ≤ l.length ∧ l.length ≤ 2 ∧
      lo ≤ digitsToNat l ∧ digitsToNat l ≤ hi then some (digitsToNat l)
  else none

/-- The `%Y-%m-%d` part: four-digit year (`datetime` requires year ≥ 1),
month 1-12, day 1-31 and within the month. -/
def parseYMD (l : List Char) : Option (Nat × Nat × Nat) :=
  match splitOnChar '-' l with
  | [ys, ms, ds] =>
    if allDigits ys ∧ ys.length = 4 ∧ 1 ≤ digitsToNat ys then
      match parseField2 1 12 ms with
      | some m =>
        match parseField2 1 31 ds with
        | some d =>
          if d ≤ daysInMonth (digitsToNat ys) m then some (digitsToNat ys, m, d)
          else none
        | none => none
      | none => none
    else none
  | _ => none

/-- The `%H:%M:%S` part (the `datetime` constructor rejects seconds 60/61,
which `strptime`'s regex would otherwise admit). -/
def parseHMS (l : List Char) : Option (Nat × Nat × Nat) :=
  match splitOnChar ':' l with
  | [hs, ms, ss] =>
    match parseField2 0 23 hs, parseField2 0 59 ms, parseField2 0 59 ss with
    | some h, some mi, some se => some (h, mi, se)
    | _, _, _ => none
  | _ => none

/-- `parse_date` from `src/tasky_agent/utils.py`: empty input raises, a string
containing a space is parsed as `%Y-%m-%d %H:%M:%S`, otherwise as
`%Y-%m-%d`; failure raises `ValueError` (here: `none`). -/
def parse_date (s : String) : Option PyDateTime :=
  if s.data = [] then none
  else if s.data.contains ' ' then
    match splitOnChar ' ' s.data with
    | [dpart, tpart] =>
      match parseYMD dpart, parseHMS tpart with
      | some (y, m, d), some (h, mi, se) => some ⟨y, m, d, h, mi, se⟩
      | _, _ => none
    | _ => none
  else
    match parseYMD s.data with
    | some (y, m, d) => some ⟨y, m, d, 0, 0, 0⟩
    | none => none

/-- Left-pad a decimal rendering with zeros to width `k`. -/
def padNat (k n : Nat) : String :=
  ⟨List.replicate (k - (toString n).length) '0' ++ (toString n).data⟩

/-- `datetime.isoformat()` for second-precision values:
`YYYY-MM-DDTHH:MM:SS`. -/
def isoformat (d : PyDateTime) : String :=
  padNat 4 d.year ++ "-" ++ padNat 2 d.month ++ "-" ++ padNat 2 d.day ++ "T" ++
    padNat 2 d.hour ++ ":" ++ padNat 2 d.minute ++ ":" ++ padNat 2 d.second

/-! ### `validate_uuid` (src/tasky_agent/utils.py)

`uuid.UUID(s)` removes every occurrence of `urn:` and `uuid:`, strips curly
braces from both ends, removes all hyphens, and then requires exactly 32
remaining characters forming a hexadecimal number. -/

/-- Remove every occurrence of `urn:` (Python `str.replace('urn:', '')`). -/
def removeUrn : List Char → List Char
  | 'u' :: 'r' :: 'n' :: ':' :: rest => removeUrn rest
  | c :: rest => c :: removeUrn rest
  | [] => []

/-- Remove every occurrence of `uuid:` (Python `str.replace('uuid:', '')`). -/
def removeUuidTag : List Char → List Char
  | 'u' :: 'u' :: 'i' :: 'd' :: ':' :: rest => removeUuidTag rest
  | c :: rest => c :: removeUuidTag rest
  | [] => []

/-- Python `str.strip('{}')`. -/
def stripBraces (l : List Char) : List Char :=
  ((l.dropWhile (fun c => c = '{' ∨ c = '}')).reverse.dropWhile
      (fun c => c = '{' ∨ c = '}')).reverse

/-- Hexadecimal digit test. -/
def isHexChar (c : Char) : Bool :=
  c.isDigit ∨ ('a' ≤ c ∧ c ≤ 'f') ∨ ('A' ≤ c ∧ c ≤ 'F')

/-- Remove all hyphens (Python `str.replace('-', '')`). -/
def removeHyphens (l : List Char) : List Char := l.filter (fun c => c ≠ '-')

/-- `validate_uuid` from `src/tasky_agent/utils.py`: `uuid.UUID(s)` succeeds
exactly when, after the replacements above, 32 hex digits remain. -/
def validate_uuid (s : String) : Bool :=
  if s.data = [] then false
  else
    let h := removeHyphens (stripBraces (removeUuidTag (removeUrn s.data)))
    h.length = 32 ∧ h.all isHexChar

/-! ### Task data model

One row of the Supabase `tasks` table, with exactly the columns the insert in
`create_tasks` writes (plus `updated_at`, written by `update_tasks`).
Optional columns are `Option`; `tags` is a Postgres array column that may be
null. -/

structure TaskRow where
  id : String
  user_id : String
  title : String
  description : Option String
  status : Option String
  due_dt : Option String
  working_dt : Option String
  duration_mins : Option Int
  priority : Option Int
  tags : Option (List String)
  created_at : String
  updated_at : Option String
  deriving DecidableEq, Repr

/-! ### `create_tasks` (src/tasky_agent/tools/create_tasks.py)

`TaskInput` is the pydantic model for one draft; passing the typed fields is
modelled directly (pydantic's duck typing of raw dicts is outside the typed
embedding).  Field defaults are those of the model. -/

structure TaskDraft where
  title : String
  description : Option String := none
  status : Option String := some "pending"
  due_dt : Option String := none
  working_dt : Option String := none
  duration_mins : Option Int := some 0
  priority : Option Int := some 2
  tags : Option (List String) := none
  deriving DecidableEq, Repr

/-- The four `TaskInput` validators: non-empty stripped title of at most 255
characters, enumerated status, priority in {1,2,3}, non-negative duration.
A `None` value passes the status/priority/duration validators (`if v ...`). -/
def pydOk (t : TaskDraft) : Bool :=
  !(t.title == "") && !(pyStrip t.title == "") &&
  decide ((pyStrip t.title).length ≤ 255) &&
  (match t.status with
   | some v => v == "pending" || v == "in_progress" || v == "completed" || v == "archived"
   | none => true) &&
  (match t.priority with
   | some v => v == 1 || v == 2 || v == 3
   | none => true) &&
  (match t.duration_mins with
   | some v => decide (0 ≤ v)
   | none => true)

/-- The title validator returns `v.strip()`, so a validated draft carries the
stripped title. -/
def stripDraft (t : TaskDraft) : TaskDraft := { t with title := pyStrip t.title }

/-- The validation loop of `create_tasks`: the first draft failing pydantic
validation aborts the whole call (`return {"status": "error", ...}`);
otherwise the drafts are paired with their `enumerate` index, titles
stripped. -/
def validateAll (k : Nat) : List TaskDraft → Except Nat (List (Nat × TaskDraft))
  | [] => .ok []
  | t :: rest =>
    if pydOk t then
      match validateAll (k + 1) rest with
      | .ok l => .ok ((k, stripDraft t) :: l)
      | .error i => .error i
    else .error k

/-- `due_dt` handling of one draft: a falsy value (`None` or `""`) is skipped
(`if due_dt:`), otherwise `parse_date` runs and a `ValueError` produces the
per-draft error message. -/
def dueParse (t : TaskDraft) : Except String (Option PyDateTime) :=
  match t.due_dt with
  | none => .ok none
  | some s =>
    if s = "" then .ok none
    else
      match parse_date s with
      | some d => .ok (some d)
      | none => .error ("Invalid deadline date format: " ++ s ++
          ". Use YYYY-MM-DD or YYYY-MM-DD HH:MM:SS")

/-- `working_dt` handling, as for `due_dt`. -/
def workingParse (t : TaskDraft) : Except String (Option PyDateTime) :=
  match t.working_dt with
  | none => .ok none
  | some s =>
    if s = "" then .ok none
    else
      match parse_date s with
      | some d => .ok (some d)
      | none => .error ("Invalid working date format: " ++ s ++
          ". Use YYYY-MM-DD or YYYY-MM-DD HH:MM:SS")

/-- The per-draft error recorded by the insertion loop (`due_dt` is parsed
first; on failure the draft is skipped before `working_dt` is examined). -/
def draftErr (t : TaskDraft) : Option String :=
  match dueParse t with
  | .error e => some e
  | .ok _ =>
    match workingParse t with
    | .error e => some e
    | .ok _ => none

/-- One per-item entry of the `errors` list of `create_tasks`. -/
structure CreateError where
  task_index : Nat
  title : String
  error : String
  deriving DecidableEq, Repr

/-- The row the insert writes: falsy `description`/`tags` become null,
parsed dates are stored in `isoformat`, `created_at` is the current UTC time
(a parameter here), `updated_at` is not set. -/
def mkRow (owner now id : String) (t : TaskDraft)
    (dd wd : Option PyDateTime) : TaskRow :=
  { id := id
    user_id := owner
    title := t.title
    description := match t.description with
      | some s => if s = "" then none else some s
      | none => none
    status := t.status
    due_dt := dd.map isoformat
    working_dt := wd.map isoformat
    duration_mins := t.duration_mins
    priority := t.priority
    tags := match t.tags with
      | some l => if l = [] then none else some l
      | none => none
    created_at := now
    updated_at := none }

/-- The insertion loop of `create_tasks` over the validated drafts: returns
the number created, the `errors` list and the rows inserted, in order.  The
list `ids` supplies the identifiers the database generates, one per
successful insert. -/
def createLoop (owner now : String) :
    List (Nat × TaskDraft) → List String → Nat × List CreateError × List TaskRow
  | [], _ => (0, [], [])
  | (i, t) :: rest, ids =>
    match dueParse t with
    | .error e =>
      let r := createLoop owner now rest ids
      (r.1, ⟨i, t.title, e⟩ :: r.2.1, r.2.2)
    | .ok dd =>
      match workingParse t with
      | .error e =>
        let r := createLoop owner now rest ids
        (r.1, ⟨i, t.title, e⟩ :: r.2.1, r.2.2)
      | .ok wd =>
        let r := createLoop owner now rest ids.tail
        (r.1 + 1, r.2.1, mkRow owner now (ids.headD "") t dd wd :: r.2.2)

/-- The result dictionary of `create_tasks`.  Early returns carry only
`status` and `message` (`task_count` and `errors` absent = `none`); the
batch result sets `errors` only when the list is non-empty. -/
structure CreateResult where
  status : String
  message : String
  task_count : Option Nat
  errors : Option (List CreateError)
  deriving DecidableEq, Repr

/-- `create_tasks`: empty input and missing user id return early; any
pydantic validation failure aborts the whole batch; otherwise the insertion
loop runs and overall `status` is `success` iff at least one draft was
created.  Returns the result together with the new table state. -/
def create_tasks (tasks : List TaskDraft) (owner : String) (ids : List String)
    (now : String) (db : List TaskRow) : CreateResult × List TaskRow :=
  if tasks = [] then
    (⟨"error", "No tasks provided to create", none, none⟩, db)
  else if owner = "" then
    (⟨"error", "User ID not found in context", none, none⟩, db)
  else
    match validateAll 0 tasks with
    | .error i =>
      -- f"Validation error for task {idx}: {str(validation_error)}"; the
      -- pydantic rendering of the message tail is not modelled.
      (⟨"error", "Validation error for task " ++ toString i, none, none⟩, db)
    | .ok validated =>
      let r := createLoop owner now validated ids
      (⟨if r.1 > 0 then "success" else "error",
        if r.1 > 0 then
          "Successfully created " ++ toString r.1 ++ " task(s)."
        else "No tasks created due to errors.",
        some r.1,
        if r.2.1 = [] then none else some r.2.1⟩,
       db ++ r.2.2)

/-! ### `get_tasks` (src/tasky_agent/tools/get_tasks.py) -/

/-- The pydantic filter model `GetTaskInput`; unknown keys are rejected by
the schema before reaching the query builder. -/
structure GetTaskInput where
  working_dt : Option String := none
  due_dt : Option String := none
  status : Option String := none
  priority : Option Int := none
  tags : Option (List String) := none
  deriving DecidableEq, Repr

/-- One formatted task of the `get_tasks` response: `task_id` is the row id
and null `tags` materialize as `[]`. -/
structure FormattedTask where
  task_id : String
  title : String
  description : Option String
  status : Option String
  created_at : String
  updated_at : Option String
  due_dt : Option String
  working_dt : Option String
  duration_mins : Option Int
  priority : Option Int
  tags : List String
  deriving DecidableEq, Repr

/-- Row formatting in `get_tasks`. -/
def formatRow (r : TaskRow) : FormattedTask :=
  ⟨r.id, r.title, r.description, r.status, r.created_at, r.updated_at,
   r.due_dt, r.working_dt, r.duration_mins, r.priority, r.tags.getD []⟩

/-- The `get_tasks` response, with absent keys as `none` (the success path
has no `message`, the error paths have no `tasks`/`count`). -/
structure GetResult where
  status : String
  message : Option String
  tasks : Option (List FormattedTask)
  count : Option Nat
  deriving DecidableEq, Repr

/-- The WHERE clause `get_tasks` builds: `.eq("user_id", user_id)` plus one
`.eq` per scalar filter and one `.contains('tags', [tag])` per listed tag
(a null column never satisfies `eq` or `contains`). -/
def rowMatches (owner : String) (wIso dIso : Option String)
    (stF : Option String) (prF : Option Int) (tagsF : Option (List String))
    (r : TaskRow) : Bool :=
  r.user_id == owner &&
  (match wIso with
   | some v => r.working_dt == some v
   | none => true) &&
  (match dIso with
   | some v => r.due_dt == some v
   | none => true) &&
  (match stF with
   | some v => r.status == some v
   | none => true) &&
  (match prF with
   | some v => r.priority == some v
   | none => true) &&
  (match tagsF with
   | some ts => ts.all (fun tag =>
      match r.tags with
      | some l => l.contains tag
      | none => false)
   | none => true)

/-- The query-execution tail of `get_tasks`, once both date filters have
been validated and converted to `isoformat`. -/
def getTasksRun (filters : GetTaskInput) (owner : String) (db : List TaskRow)
    (wIso dIso : Option String) : GetResult :=
  let matched := db.filter
    (rowMatches owner wIso dIso filters.status filters.priority filters.tags)
  ⟨"success", none, some (matched.map formatRow), some matched.length⟩

/-- The `due_dt` validation step of `get_tasks`. -/
def getTasksDue (filters : GetTaskInput) (owner : String) (db : List TaskRow)
    (wIso : Option String) : GetResult :=
  match filters.due_dt with
  | some s =>
    match parse_date s with
    | none => ⟨"error", some ("Invalid date format for due_dt: " ++ s ++
        ". Use YYYY-MM-DD or YYYY-MM-DD HH:MM:SS"), none, none⟩
    | some dd => getTasksRun filters owner db wIso (some (isoformat dd))
  | none => getTasksRun filters owner db wIso none

/-- `get_tasks`: missing user id errors; a date filter that fails
`parse_date` aborts the read (`working_dt` is examined before `due_dt`, the
iteration order of the validated filter dict); otherwise the matching rows
are formatted in table order. -/
def get_tasks (filters : GetTaskInput) (owner : String) (db : List TaskRow) :
    GetResult :=
  if owner = "" then ⟨"error", some "User ID not found in context", none, none⟩
  else
    match filters.working_dt with
    | some s =>
      match parse_date s with
      | none => ⟨"error", some ("Invalid date format for working_dt: " ++ s ++
          ". Use YYYY-MM-DD or YYYY-MM-DD HH:MM:SS"), none, none⟩
      | some wd => getTasksDue filters owner db (some (isoformat wd))
    | none => getTasksDue filters owner db none

/-! ### `update_tasks` (src/tasky_agent/tools/update_tasks.py) -/

/-- The pydantic model `TaskUpdateInput` for one update item. -/
structure TaskUpdateInput where
  task_id : String
  title : Option String := none
  description : Option String := none
  status : Option String := none
  due_dt : Option String := none
  working_dt : Option String := none
  duration_mins : Option Int := none
  priority : Option Int := none
  tags : Option (List String) := none
  deriving DecidableEq, Repr

/-- An entry of `failed_updates` / `failed_deletes`. -/
structure FailEntry where
  task_id : String
  reason : String
  deriving DecidableEq, Repr

/-- An entry of `successful_updates`. -/
structure SuccessEntry where
  task_id : String
  message : String
  deriving DecidableEq, Repr

/-- The `update_data` dict: the subset of columns the UPDATE statement will
set.  All fields absent = the dict is empty. -/
structure UpdateData where
  title : Option String := none
  description : Option String := none
  status : Option String := none
  due_dt : Option String := none
  working_dt : Option String := none
  duration_mins : Option Int := none
  priority : Option Int := none
  tags : Option (List String) := none
  deriving DecidableEq, Repr

/-- Empty-dict test for `update_data` (`if not update_data`). -/
def udEmpty (u : UpdateData) : Bool :=
  u.title == none && u.description == none && u.status == none &&
  u.due_dt == none && u.working_dt == none && u.duration_mins == none &&
  u.priority == none && u.tags == none

/-- The field loop of `update_tasks` for one item, over the `model_dump`
field order (`title`, `description`, `status`, `due_dt`, `working_dt`,
`duration_mins`, `priority`, `tags`): a `None` value is skipped, an invalid
date/status/priority appends a `failed_updates` entry and — as in the source,
whose `continue` sits inside the field loop — skips only that field, and a
valid value lands in `update_data`. -/
def buildUpdateData (t : TaskUpdateInput) : UpdateData × List FailEntry :=
  let s0 : UpdateData × List FailEntry := (⟨none, none, none, none, none, none, none, none⟩, [])
  let s1 := match t.title with
    | some v => ({ s0.1 with title := some v }, s0.2)
    | none => s0
  let s2 := match t.description with
    | some v => ({ s1.1 with description := some v }, s1.2)
    | none => s1
  let s3 := match t.status with
    | some v =>
      if v == "pending" || v == "in_progress" || v == "completed" || v == "archived" then
        ({ s2.1 with status := some v }, s2.2)
      else (s2.1, s2.2 ++ [⟨t.task_id, "Invalid status: " ++ v⟩])
    | none => s2
  let s4 := match t.due_dt with
    | some v =>
      match parse_date v with
      | some d => ({ s3.1 with due_dt := some (isoformat d) }, s3.2)
      | none => (s3.1, s3.2 ++ [⟨t.task_id, "Invalid date format for due_dt: " ++ v⟩])
    | none => s3
  let s5 := match t.working_dt with
    | some v =>
      match parse_date v with
      | some d => ({ s4.1 with working_dt := some (isoformat d) }, s4.2)
      | none => (s4.1, s4.2 ++ [⟨t.task_id, "Invalid date format for working_dt: " ++ v⟩])
    | none => s4
  let s6 := match t.duration_mins with
    | some v => ({ s5.1 with duration_mins := some v }, s5.2)
    | none => s5
  let s7 := match t.priority with
    | some v =>
      if v == 1 || v == 2 || v == 3 then ({ s6.1 with priority := some v }, s6.2)
      else (s6.1, s6.2 ++ [⟨t.task_id, "Invalid priority: " ++ toString v⟩])
    | none => s6
  match t.tags with
  | some v => ({ s7.1 with tags := some v }, s7.2)
  | none => s7

/-- Applying `update_data` plus the fresh `updated_at` stamp to a row.  The
`id` and `user_id` columns are never part of the dict and stay fixed. -/
def applyUpdate (u : UpdateData) (now : String) (r : TaskRow) : TaskRow :=
  { r with
    title := u.title.getD r.title
    description := match u.description with
      | some v => some v
      | none => r.description
    status := match u.status with
      | some v => some v
      | none => r.status
    due_dt := match u.due_dt with
      | some v => some v
      | none => r.due_dt
    working_dt := match u.working_dt with
      | some v => some v
      | none => r.working_dt
    duration_mins := match u.duration_mins with
      | some v => some v
      | none => r.duration_mins
    priority := match u.priority with
      | some v => some v
      | none => r.priority
    tags := match u.tags with
      | some v => some v
      | none => r.tags
    updated_at := some now }

/-- Ownership probe: `select * where id = tid and user_id = owner` returns a
non-empty list. -/
def ownedProbe (owner tid : String) (db : List TaskRow) : Bool :=
  db.any (fun r => r.id == tid && r.user_id == owner)

/-- The per-item loop of `update_tasks`: unknown or foreign `task_id` fails
with the not-owned reason; otherwise the field loop runs, an empty
`update_data` fails with "No fields provided for update", and a non-empty
one executes `update ... eq id eq user_id` (stamping `updated_at`) and
records a success — even when invalid fields of the same item were already
recorded as failures. -/
def updateLoop (owner now : String) :
    List TaskUpdateInput → List TaskRow →
    List SuccessEntry × List FailEntry × List TaskRow
  | [], db => ([], [], db)
  | t :: rest, db =>
    if ownedProbe owner t.task_id db then
      let ud := (buildUpdateData t).1
      let fs := (buildUpdateData t).2
      if udEmpty ud then
        let r := updateLoop owner now rest db
        (r.1, fs ++ ⟨t.task_id, "No fields provided for update"⟩ :: r.2.1, r.2.2)
      else
        let r := updateLoop owner now rest
          (db.map (fun row =>
            if row.id == t.task_id && row.user_id == owner then
              applyUpdate ud now row
            else row))
        (⟨t.task_id, "Task updated successfully"⟩ :: r.1, fs ++ r.2.1, r.2.2)
    else
      let r := updateLoop owner now rest db
      (r.1, ⟨t.task_id,
        "Task with ID " ++ t.task_id ++ " not found or not owned by user"⟩ :: r.2.1, r.2.2)

/-- `results` of `update_tasks`. -/
structure UpdateResults where
  successful_updates : List SuccessEntry
  failed_updates : List FailEntry
  deriving DecidableEq, Repr

/-- The `update_tasks` response (early returns carry no `results`). -/
structure UpdateResult where
  status : String
  message : String
  results : Option UpdateResults
  deriving DecidableEq, Repr

/-- The UUID pre-validation loop of `update_tasks`: the first item whose
`task_id` fails `validate_uuid` aborts the whole call. -/
def firstBadUuidIdx (k : Nat) : List TaskUpdateInput → Option (Nat × String)
  | [] => none
  | t :: rest =>
    if validate_uuid t.task_id then firstBadUuidIdx (k + 1) rest
    else some (k, t.task_id)

/-- `update_tasks`: empty input and missing user id return early; a
malformed `task_id` anywhere aborts the whole batch before any write;
otherwise the per-item loop runs and the overall `status` is always
`success`. -/
def update_tasks (tasks : List TaskUpdateInput) (owner : String)
    (now : String) (db : List TaskRow) : UpdateResult × List TaskRow :=
  if tasks = [] then
    (⟨"error", "No tasks provided to update", none⟩, db)
  else if owner = "" then
    (⟨"error", "User ID not found in context", none⟩, db)
  else
    match firstBadUuidIdx 0 tasks with
    | some (i, tid) =>
      (⟨"error", "Invalid UUID format for task_id in task " ++ toString i ++
        ": " ++ tid, none⟩, db)
    | none =>
      let r := updateLoop owner now tasks db
      (⟨"success",
        "Updated " ++ toString r.1.length ++ " tasks successfully, " ++
          toString r.2.1.length ++ " failed",
        some ⟨r.1, r.2.1⟩⟩, r.2.2)

/-! ### `delete_tasks` (src/tasky_agent/tools/delete_tasks.py) -/

/-- `results` of `delete_tasks`. -/
structure DeleteResults where
  successful_deletes : List String
  failed_deletes : List FailEntry
  deriving DecidableEq, Repr

/-- The `delete_tasks` response (early returns carry no `results`). -/
structure DeleteResult where
  status : String
  message : String
  results : Option DeleteResults
  deriving DecidableEq, Repr

/-- The UUID pre-validation loop of `delete_tasks`, run before the database
connection is even opened: the first malformed id aborts the call. -/
def firstBadUuid : List String → Option String
  | [] => none
  | tid :: rest => if validate_uuid tid then firstBadUuid rest else some tid

/-- The per-id loop of `delete_tasks`: unknown or foreign ids fail with the
unauthorized reason, owned ids are deleted
(`delete ... eq id eq user_id`). -/
def deleteLoop (owner : String) :
    List String → List TaskRow → List String × List FailEntry × List TaskRow
  | [], db => ([], [], db)
  | tid :: rest, db =>
    if ownedProbe owner tid db then
      let r := deleteLoop owner rest
        (db.filter (fun row => !(row.id == tid && row.user_id == owner)))
      (tid :: r.1, r.2.1, r.2.2)
    else
      let r := deleteLoop owner rest db
      (r.1, ⟨tid, "Task with ID " ++ tid ++ " not found or unauthorized"⟩ :: r.2.1, r.2.2)

/-- `delete_tasks`: empty input errors; every id is UUID-validated before
any database access and a single malformed id aborts the whole batch;
otherwise the loop runs and `status` is `success` iff at least one delete
succeeded. -/
def delete_tasks (task_ids : List String) (owner : String)
    (db : List TaskRow) : DeleteResult × List TaskRow :=
  if task_ids = [] then
    (⟨"error", "No task IDs provided to delete", none⟩, db)
  else
    match firstBadUuid task_ids with
    | some tid =>
      (⟨"error", "Invalid UUID format for task_id: " ++ tid, none⟩, db)
    | none =>
      if owner = "" then
        (⟨"error", "User ID not found in context", none⟩, db)
      else
        let r := deleteLoop owner task_ids db
        (⟨if r.1 = [] then "error" else "success",
          "Successfully deleted " ++ toString r.1.length ++
            " task(s), failed to delete " ++ toString r.2.1.length ++ " task(s).",
          some ⟨r.1, r.2.1⟩⟩, r.2.2)

/-! ### Daily summary (src/api_server/database.py, src/services/daily_summary.py)

`get_users_tasks_by_date` returns, per user, a Python dict with the keys
`id`, `username`, `phone_number` (the selected columns) and `tasks` (the
day's tasks appended per user).  `send_daily_summary` then reads
`user["phone_number"]`, `user["contact_name"]` and `user["tasks"]` from each
dict; dict access to a missing key raises `KeyError`, so the dicts are
embedded as string-keyed association lists. -/

structure UserRow where
  id : String
  username : String
  phone_number : String
  deriving DecidableEq, Repr

/-- A value of one of the user dicts handed to the daily summary job:
either a string column or the task list. -/
inductive DVal where
  | str (v : String)
  | tasks (v : List TaskRow)
  deriving DecidableEq, Repr

/-- String comparison used for the `working_dt` range filter; Postgres
compares the timestamp column against the `YYYY-MM-DDTHH:MM:SS` bounds,
which on `isoformat` strings coincides with lexicographic order. -/
def strLeB : List Char → List Char → Bool
  | [], _ => true
  | _ :: _, [] => false
  | a :: as, b :: bs => if a < b then true else if b < a then false else strLeB as bs

/-- `get_users_tasks_by_date`: select `id, username, phone_number` from
`users`; select the day's tasks (`working_dt` between `date`T00:00:00 and
`date`T23:59:59); map each task to its user.  Each user becomes the dict
`{id, username, phone_number, tasks}` (user ids are the table's primary key,
so the id-keyed Python dict is in bijection with the user list). -/
def get_users_tasks_by_date (users : List UserRow) (tasksTbl : List TaskRow)
    (date : String) : List (List (String × DVal)) :=
  let startOfDay := date ++ "T00:00:00"
  let endOfDay := date ++ "T23:59:59"
  let dayTasks := tasksTbl.filter (fun t =>
    match t.working_dt with
    | some w => strLeB startOfDay.data w.data && strLeB w.data endOfDay.data
    | none => false)
  users.map (fun u =>
    [("id", DVal.str u.id), ("username", DVal.str u.username),
     ("phone_number", DVal.str u.phone_number),
     ("tasks", DVal.tasks (dayTasks.filter (fun t => t.user_id == u.id)))])

/-- Python dict access `d[k]`: `KeyError` on a missing key. -/
def dictGet (d : List (String × DVal)) (k : String) : Except String DVal :=
  match d.find? (fun p => p.1 == k) with
  | some p => .ok p.2
  | none => .error k

/-- `f"- {task['title']} (Due: {task['due_dt']})"`; a null `due_dt` prints
as Python's `None`. -/
def taskLine (t : TaskRow) : String :=
  "- " ++ t.title ++ " (Due: " ++ (match t.due_dt with
    | some s => s
    | none => "None") ++ ")"

/-- The message-composition loop of `send_daily_summary` over the user
dicts: reads `phone_number`, `contact_name` and `tasks` from each dict (in
that order), builds the no-tasks greeting or the generated summary (`gen`
abstracts the LLM call `generate_daily_summary`), and returns the
`(phone_number, message)` pairs.  The first `KeyError` aborts the loop. -/
def composeSummaries (gen : String → String → String → String) (date : String) :
    List (List (String × DVal)) → Except String (List (String × String))
  | [] => .ok []
  | u :: rest =>
    match dictGet u "phone_number" with
    | .error k => .error k
    | .ok pv =>
      match dictGet u "contact_name" with
      | .error k => .error k
      | .ok nv =>
        match dictGet u "tasks" with
        | .error k => .error k
        | .ok tv =>
          let phone := match pv with
            | .str s => s
            | .tasks _ => ""
          let name := match nv with
            | .str s => s
            | .tasks _ => ""
          let ts := match tv with
            | .tasks l => l
            | .str _ => []
          let message :=
            if ts = [] then
              "Hello " ++ name ++ ", You got no tasks today. ENJOY!!!"
            else
              gen date name (String.intercalate "\n" (ts.map taskLine))
          match composeSummaries gen date rest with
          | .ok l => .ok ((phone, message) :: l)
          | .error k => .error k

/-- The HTTP response of the `/daily-summary` endpoint. -/
structure HttpResp where
  code : Nat
  status : String
  details : String
  deriving DecidableEq, Repr

/-- `send_daily_summary`: a missing `date` yields 400; otherwise the
composition loop runs over `get_users_tasks_by_date` and the messages are
sent concurrently afterwards — an exception inside the loop is caught by
the outer handler, which returns 500 and sends nothing.  The second
component is the list of `(phone, message)` sends performed. -/
def send_daily_summary (users : List UserRow) (tasksTbl : List TaskRow)
    (gen : String → String → String → String) (dateBody : Option String) :
    HttpResp × List (String × String) :=
  match dateBody with
  | none => (⟨400, "error", "Missing date in request body"⟩, [])
  | some date =>
    match composeSummaries gen date (get_users_tasks_by_date users tasksTbl date) with
    | .ok msgs => (⟨200, "success", "Daily summaries sent"⟩, msgs)
    | .error _ => (⟨500, "error", "Failed to send daily summaries"⟩, [])

/-! ### Signature verification (src/api_server/utils.py)

`verify_whatsapp_signature` computes
`hmac.new(secret.encode("utf-8"), body, hashlib.sha256).hexdigest()` and
compares it (`hmac.compare_digest`, equality up to timing) with the header
value after stripping an optional `sha256=` tag.  The external `hashlib`
primitive is embedded as the full FIPS 180-4 SHA-256 over byte lists
(`Nat` < 256), with 32-bit words as `Nat` reduced mod `2 ^ 32`. -/

/-- 32-bit truncation. -/
def w32 (n : Nat) : Nat := n % 4294967296

/-- Right rotation of a 32-bit word. -/
def rotr (n x : Nat) : Nat := w32 (x / 2 ^ n + x % 2 ^ n * 2 ^ (32 - n))

/-- 32-bit complement. -/
def not32 (x : Nat) : Nat := x ^^^ 4294967295

/-- SHA-256 `Ch`. -/
def shaCh (x y z : Nat) : Nat := (x &&& y) ^^^ (not32 x &&& z)

/-- SHA-256 `Maj`. -/
def shaMaj (x y z : Nat) : Nat := (x &&& y) ^^^ (x &&& z) ^^^ (y &&& z)

/-- SHA-256 `Σ0`. -/
def bigSigma0 (x : Nat) : Nat := rotr 2 x ^^^ rotr 13 x ^^^ rotr 22 x

/-- SHA-256 `Σ1`. -/
def bigSigma1 (x : Nat) : Nat := rotr 6 x ^^^ rotr 11 x ^^^ rotr 25 x

/-- SHA-256 `σ0`. -/
def smallSigma0 (x : Nat) : Nat := rotr 7 x ^^^ rotr 18 x ^^^ (x / 2 ^ 3)

/-- SHA-256 `σ1`. -/
def smallSigma1 (x : Nat) : Nat := rotr 17 x ^^^ rotr 19 x ^^^ (x / 2 ^ 10)

/-- The 64 SHA-256 round constants (decimal renderings of the FIPS 180-4
values). -/
def shaK : List Nat :=
  [1116352408, 1899447441, 3049323471, 3921009573, 961987163,
   1508970993, 2453635748, 2870763221, 3624381080, 310598401,
   607225278, 1426881987, 1925078388, 2162078206, 2614888103,
   3248222580, 3835390401, 4022224774, 264347078, 604807628,
   770255983, 1249150122, 1555081692, 1996064986, 2554220882,
   2821834349, 2952996808, 3210313671, 3336571891, 3584528711,
   113926993, 338241895, 666307205, 773529912, 1294757372,
   1396182291, 1695183700, 1986661051, 2177026350, 2456956037,
   2730485921, 2820302411, 3259730800, 3345764771, 3516065817,
   3600352804, 4094571909, 275423344, 430227734, 506948616,
   659060556, 883997877, 958139571, 1322822218, 1537002063,
   1747873779, 1955562222, 2024104815, 2227730452, 2361852424,
   2428436474, 2756734187, 3204031479, 3329325298]

/-- The SHA-256 working state. -/
structure SHAState where
  a : Nat
  b : Nat
  c : Nat
  d : Nat
  e : Nat
  f : Nat
  g : Nat
  h : Nat
  deriving DecidableEq, Repr

/-- Initial hash value (decimal renderings of the FIPS 180-4 values). -/
def shaH0 : SHAState :=
  ⟨1779033703, 3144134277, 1013904242, 2773480762,
   1359893119, 2600822924, 528734635, 1541459225⟩

/-- Big-endian word from the first four bytes. -/
def word4 (l : List Nat) : Nat :=
  l.getD 0 0 * 2 ^ 24 + l.getD 1 0 * 2 ^ 16 + l.getD 2 0 * 2 ^ 8 + l.getD 3 0

/-- The sixteen words of one 64-byte block. -/
def blockWords (block : List Nat) : List Nat :=
  (List.range 16).map (fun i => word4 (block.drop (4 * i)))

/-- One message-schedule extension step. -/
def extendOnce (w : List Nat) : List Nat :=
  w ++ [w32 (smallSigma1 (w.getD (w.length - 2) 0) + w.getD (w.length - 7) 0 +
    smallSigma0 (w.getD (w.length - 15) 0) + w.getD (w.length - 16) 0)]

/-- The 64-word message schedule. -/
def schedule (w : List Nat) : List Nat :=
  (List.range 48).foldl (fun acc _ => extendOnce acc) w

/-- One SHA-256 round. -/
def shaRound (s : SHAState) (ki wi : Nat) : SHAState :=
  let t1 := w32 (s.h + bigSigma1 s.e + shaCh s.e s.f s.g + ki + wi)
  let t2 := w32 (bigSigma0 s.a + shaMaj s.a s.b s.c)
  ⟨w32 (t1 + t2), s.a, s.b, s.c, w32 (s.d + t1), s.e, s.f, s.g⟩

/-- Compression of one block. -/
def compressBlock (s : SHAState) (block : List Nat) : SHAState :=
  let ws := schedule (blockWords block)
  let t := (shaK.zip ws).foldl (fun st kw => shaRound st kw.1 kw.2) s
  ⟨w32 (s.a + t.a), w32 (s.b + t.b), w32 (s.c + t.c), w32 (s.d + t.d),
   w32 (s.e + t.e), w32 (s.f + t.f), w32 (s.g + t.g), w32 (s.h + t.h)⟩

/-- The eight big-endian length bytes of the padding. -/
def lenBytes (n : Nat) : List Nat :=
  [n / 2 ^ 56 % 256, n / 2 ^ 48 % 256, n / 2 ^ 40 % 256, n / 2 ^ 32 % 256,
   n / 2 ^ 24 % 256, n / 2 ^ 16 % 256, n / 2 ^ 8 % 256, n % 256]

/-- FIPS 180-4 padding: `0x80`, zeros to 56 mod 64, then the bit length. -/
def padMessage (msg : List Nat) : List Nat :=
  msg ++ 0x80 :: List.replicate ((119 - msg.length % 64) % 64) 0 ++
    lenBytes (msg.length * 8)

/-- Split into 64-byte blocks (fuel-based so that it reduces inside the
kernel; `fuel = length + 1` always suffices since every step consumes a
non-empty list). -/
def toBlocksFuel : Nat → List Nat → List (List Nat)
  | 0, _ => []
  | _ + 1, [] => []
  | n + 1, x :: xs => (x :: xs).take 64 :: toBlocksFuel n ((x :: xs).drop 64)

/-- Split into 64-byte blocks. -/
def toBlocks (l : List Nat) : List (List Nat) := toBlocksFuel (l.length + 1) l

/-- The four big-endian bytes of a 32-bit word. -/
def wordBytes (w : Nat) : List Nat :=
  [w / 2 ^ 24 % 256, w / 2 ^ 16 % 256, w / 2 ^ 8 % 256, w % 256]

/-- Digest serialization. -/
def stateBytes (s : SHAState) : List Nat :=
  wordBytes s.a ++ wordBytes s.b ++ wordBytes s.c ++ wordBytes s.d ++
    wordBytes s.e ++ wordBytes s.f ++ wordBytes s.g ++ wordBytes s.h

/-- SHA-256 of a byte list. -/
def sha256 (msg : List Nat) : List Nat :=
  stateBytes ((toBlocks (padMessage msg)).foldl compressBlock shaH0)

/-- RFC 2104 HMAC-SHA256 (`hmac.new(key, msg, hashlib.sha256)`). -/
def hmacSha256 (key msg : List Nat) : List Nat :=
  let k0 := if 64 < key.length then sha256 key else key
  let kp := k0 ++ List.replicate (64 - k0.length) 0
  sha256 (kp.map (fun b => b ^^^ 0x5c) ++
    sha256 (kp.map (fun b => b ^^^ 0x36) ++ msg))

/-- Lowercase hex digit. -/
def hexDigit (n : Nat) : Char :=
  if n < 10 then Char.ofNat ('0'.toNat + n) else Char.ofNat ('a'.toNat + n - 10)

/-- `.hexdigest()`: lowercase hex of a byte list. -/
def hexOfBytes (l : List Nat) : String :=
  ⟨l.flatMap (fun b => [hexDigit (b / 16), hexDigit (b % 16)])⟩

/-- `secret.encode("utf-8")`, bytewise for the ASCII range. -/
def strBytes (s : String) : List Nat := s.data.map Char.toNat

/-- The expected signature: hex HMAC-SHA256 of the body under the secret. -/
def hexHmac (secret : String) (body : List Nat) : String :=
  hexOfBytes (hmacSha256 (strBytes secret) body)

/-- Strip the `sha256=` tag (`signature_header[7:]` when it starts with
`sha256=`). -/
def stripSigHeader (h : String) : String :=
  if h.data.take 7 = "sha256=".data then ⟨h.data.drop 7⟩ else h

/-- `verify_whatsapp_signature`: a missing header returns `False` at once;
a missing secret raises `AttributeError` (which the except clause does not
catch); otherwise the stripped header is compared with the expected hex
digest.  The `Except` layer carries the uncaught exception. -/
def verify_whatsapp_signature (signature_header : Option String)
    (secret : Option String) (body : List Nat) : Except String Bool :=
  match signature_header with
  | none => .ok false
  | some header =>
    let signature := stripSigHeader header
    match secret with
    | none => .error "AttributeError"
    | some sec => .ok (hexHmac sec body == signature)

/-- The verdict the webhook handler in `src/main.py` acts on: an exception
from `verify_whatsapp_signature` is caught there and treated exactly like a
`False` verdict (HTTP 403). -/
def verifiedFlag (signature_header secret : Option String)
    (body : List Nat) : Bool :=
  match verify_whatsapp_signature signature_header secret body with
  | .ok v => v
  | .error _ => false

/-- The header value a well-behaved sender attaches to a signed body. -/
def signedHeader (secret : String) (body : List Nat) : String :=
  "sha256=" ++ hexHmac secret body

/-! ### Derived forms used to state the theorems -/

/-- What the validation loop of `create_tasks` produces on success: the
drafts paired with their `enumerate` index, titles stripped. -/
def enumStrip (k : Nat) : List TaskDraft → List (Nat × TaskDraft)
  | [] => []
  | t :: rest => (k, stripDraft t) :: enumStrip (k + 1) rest

/-- A row that belongs to a user other than `owner`. -/
def foreignRow (owner : String) (r : TaskRow) : Bool := !(r.user_id == owner)

/-- A byte list encoding a function `Fin 33 → Fin 256`; two distinct
functions give two bodies of equal length 33 differing in at least one
byte. -/
def bodyOfFn (u : Fin 33 → Fin 256) : List Nat := (List.ofFn u).map Fin.val

/-- The HMAC digest of such a body, folded back into the finite type
`Fin 32 → Fin 256` (a digest is 32 bytes). -/
def digestFn (secret : String) (u : Fin 33 → Fin 256) : Fin 32 → Fin 256 :=
  fun i => ⟨(hmacSha256 (strBytes secret) (bodyOfFn u)).getD i 0 % 256,
    Nat.mod_lt _ (by norm_num)⟩

/-! ## Auxiliary lemmas -/

theorem aux_dropWhile_idem {α : Type} (p : α → Bool) (l : List α) :
    (l.dropWhile p).dropWhile p = l.dropWhile p := by
  induction l with
  | nil => rfl
  | cons x xs ih =>
    by_cases h : p x
    · simp [List.dropWhile_cons, h, ih]
    · simp [List.dropWhile_cons, h]

theorem aux_dropWhile_head_false {α : Type} (p : α → Bool) (l : List α)
    (a : α) (t : List α) (h : l.dropWhile p = a :: t) : p a = false := by
  induction l with
  | nil => simp at h
  | cons x xs ih =>
    by_cases hx : p x
    · rw [List.dropWhile_cons, if_pos hx] at h
      exact ih h
    · rw [List.dropWhile_cons, if_neg hx] at h
      injection h with h1 h2
      subst h1
      simpa using hx

theorem aux_stripChars_idem (l : List Char) :
    stripChars (stripChars l) = stripChars l := by
  unfold stripChars
  have hrr : ∀ m : List Char, m.reverse.reverse = m := fun m => m.reverse_reverse
  set p := isPySpace with hp
  set r1 := l.dropWhile p with hr1
  set r2 := ((l.dropWhile p).reverse.dropWhile p).reverse with hr2
  have hstep1 : r2.dropWhile p = r2 := by
    cases he : r2 with
    | nil => rfl
    | cons a t =>
      have hpre : r2 <+: r1 := by
        rw [← List.reverse_suffix]
        have : r2.reverse = r1.reverse.dropWhile p := by
          rw [hr2, hrr, hr1]
        rw [this]
        exact List.dropWhile_suffix p
      obtain ⟨srest, hs⟩ := hpre
      have hr1eq : l.dropWhile p = a :: (t ++ srest) := by
        rw [← hr1, ← hs, he]
        rfl
      have hpa : p a = false := aux_dropWhile_head_false p l a _ hr1eq
      simp [List.dropWhile_cons, hpa]
  have hstep2 : r2.reverse.dropWhile p = r2.reverse := by
    have : r2.reverse = r1.reverse.dropWhile p := by
      rw [hr2, hrr, hr1]
    rw [this]
    exact aux_dropWhile_idem p r1.reverse
  rw [hstep1, hstep2, hrr]

theorem aux_pyStrip_idem (s : String) : pyStrip (pyStrip s) = pyStrip s :=
  congrArg String.mk (aux_stripChars_idem s.data)

/-! ## C10 -/

/-- Claim C10: for every call of Create, Update, or Delete with an empty
input list, the operation returns status "error" with a message that nothing
was provided, before any database connection or query is attempted (the
result is a constant independent of the table), and no task state
changes. -/
theorem empty_batch_guards :
    (∀ (owner : String) (ids : List String) (now : String) (db : List TaskRow),
      create_tasks [] owner ids now db =
        (⟨"error", "No tasks provided to create", none, none⟩, db)) ∧
    (∀ (owner now : String) (db : List TaskRow),
      update_tasks [] owner now db =
        (⟨"error", "No tasks provided to update", none⟩, db)) ∧
    (∀ (owner : String) (db : List TaskRow),
      delete_tasks [] owner db =
        (⟨"error", "No task IDs provided to delete", none⟩, db)) :=
  ⟨fun _ _ _ _ => rfl, fun _ _ _ => rfl, fun _ _ => rfl⟩

/-! ## C5 -/

/-- Claim C5 (code bug): an update item carrying one invalid field
(`status := "bogus"`) and one valid field (`title := "New"`) is recorded in
`failed_updates`, yet its valid field is still written to the row — the
source's `continue` skips only the field, not the item — and the item is
simultaneously recorded in `successful_updates`.  The claim requires that
none of the item's fields be written. -/
theorem update_invalid_field_partial_write_bug :
    update_tasks [{ task_id := "00000000-0000-0000-0000-000000000000",
                    title := some "New", status := some "bogus" }] "u1"
      "2025-07-02T00:00:00"
      [⟨"00000000-0000-0000-0000-000000000000", "u1", "Old", none,
        some "pending", none, none, some 0, some 2, none,
        "2025-07-01T00:00:00", none⟩] =
    (⟨"success", "Updated 1 tasks successfully, 1 failed",
      some ⟨[⟨"00000000-0000-0000-0000-000000000000", "Task updated successfully"⟩],
            [⟨"00000000-0000-0000-0000-000000000000", "Invalid status: bogus"⟩]⟩⟩,
     [⟨"00000000-0000-0000-0000-000000000000", "u1", "New", none,
       some "pending", none, none, some 0, some 2, none,
       "2025-07-01T00:00:00", some "2025-07-02T00:00:00"⟩]) := by
  decide

/-! ## C9 -/

/-- Claim C9 (code bug): the user dicts built by `get_users_tasks_by_date`
carry the key `username`, but `send_daily_summary` reads
`user["contact_name"]`; the resulting `KeyError` is caught by the outer
handler, which answers 500 and sends nothing — for a user with zero tasks
the promised "Hello {name}, You got no tasks today. ENJOY!!!" message is
never sent. -/
theorem daily_summary_contact_name_keyerror :
    composeSummaries (fun _ _ _ => "") "2025-07-15"
        (get_users_tasks_by_date [⟨"u1", "Alice", "15551234567"⟩] [] "2025-07-15") =
      .error "contact_name" ∧
    send_daily_summary [⟨"u1", "Alice", "15551234567"⟩] [] (fun _ _ _ => "")
        (some "2025-07-15") =
      (⟨500, "error", "Failed to send daily summaries"⟩, []) :=
  ⟨rfl, rfl⟩

/-! ## C3: counterexample -/

/-- Claim C3 as stated is false: in a batch containing a whitespace-only
title alongside a valid draft, the pydantic validation loop aborts the whole
call — the offending draft is not reported in a per-item `errors` list
(`errors` is absent) and the valid draft `"ok"` is not created. -/
theorem create_title_batch_abort_cex :
    ¬ (∃ row ∈ (create_tasks [{ title := "   " }, { title := "ok" }] "u1"
          ["a", "b"] "2025-07-10T00:00:00" []).2, row.title = "ok") ∧
    (create_tasks [{ title := "   " }, { title := "ok" }] "u1"
        ["a", "b"] "2025-07-10T00:00:00" []).1.errors = none := by
  decide

/-! ## C2: signature verification -/

theorem aux_strip_signedHeader (x : String) :
    stripSigHeader ("sha256=" ++ x) = x := by
  show (if ("sha256=" ++ x).data.take 7 = "sha256=".data then
      (⟨("sha256=" ++ x).data.drop 7⟩ : String) else ("sha256=" ++ x)) = x
  have htake : ("sha256=" ++ x).data.take 7 = "sha256=".data := rfl
  have hdrop : ("sha256=" ++ x).data.drop 7 = x.data := rfl
  rw [if_pos htake, hdrop]

theorem aux_flag_some_some (h s : String) (b : List Nat) :
    verifiedFlag (some h) (some s) b = (hexHmac s b == stripSigHeader h) := rfl

theorem aux_flag_no_header (s : Option String) (b : List Nat) :
    verifiedFlag none s b = false := rfl

theorem aux_flag_no_secret (h : String) (b : List Nat) :
    verifiedFlag (some h) none b = false := rfl

theorem aux_flag_signed (s : String) (b b' : List Nat) :
    verifiedFlag (some (signedHeader s b)) (some s) b' =
      (hexHmac s b' == hexHmac s b) := by
  rw [aux_flag_some_some, signedHeader, aux_strip_signedHeader]

theorem aux_stateBytes_length (s : SHAState) : (stateBytes s).length = 32 := by
  simp [stateBytes, wordBytes]

theorem aux_stateBytes_lt (s : SHAState) : ∀ x ∈ stateBytes s, x < 256 := by
  intro x hx
  simp only [stateBytes, wordBytes, List.mem_append, List.mem_cons,
    List.not_mem_nil, or_false] at hx
  omega

theorem aux_sha256_length (m : List Nat) : (sha256 m).length = 32 :=
  aux_stateBytes_length _

theorem aux_sha256_lt (m : List Nat) : ∀ x ∈ sha256 m, x < 256 :=
  aux_stateBytes_lt _

theorem aux_hmac_length (k m : List Nat) : (hmacSha256 k m).length = 32 :=
  aux_sha256_length _

theorem aux_hmac_lt (k m : List Nat) : ∀ x ∈ hmacSha256 k m, x < 256 :=
  aux_sha256_lt _

theorem aux_bodyOfFn_injective : Function.Injective bodyOfFn := by
  intro u v h
  have := (List.map_injective_iff.mpr Fin.val_injective) h
  exact List.ofFn_injective this

theorem aux_list_eq_of_digest_eq (l1 l2 : List Nat)
    (h1 : l1.length = 32) (h2 : l2.length = 32)
    (b1 : ∀ x ∈ l1, x < 256) (b2 : ∀ x ∈ l2, x < 256)
    (h : (fun i : Fin 32 => l1.getD i 0 % 256) =
         (fun i : Fin 32 => l2.getD i 0 % 256)) : l1 = l2 := by
  apply List.ext_getElem (by omega)
  intro i hi1 hi2
  have hlt : i < 32 := by omega
  have := congrFun h ⟨i, hlt⟩
  simp only at this
  rw [List.getD_eq_getElem l1 0 (by omega), List.getD_eq_getElem l2 0 (by omega)] at this
  rwa [Nat.mod_eq_of_lt (b1 _ (List.getElem_mem hi1)),
    Nat.mod_eq_of_lt (b2 _ (List.getElem_mem hi2))] at this

theorem aux_hmac_collision (secret : String) :
    ∃ b b' : List Nat, b ≠ b' ∧
      hmacSha256 (strBytes secret) b = hmacSha256 (strBytes secret) b' := by
  have hcard : Fintype.card (Fin 32 → Fin 256) < Fintype.card (Fin 33 → Fin 256) := by
    simp only [Fintype.card_fun, Fintype.card_fin]
    exact Nat.pow_lt_pow_right (by norm_num) (by norm_num)
  obtain ⟨u, v, hne, heq⟩ :=
    Fintype.exists_ne_map_eq_of_card_lt (digestFn secret) hcard
  refine ⟨bodyOfFn u, bodyOfFn v, fun hb => hne (aux_bodyOfFn_injective hb), ?_⟩
  apply aux_list_eq_of_digest_eq _ _ (aux_hmac_length _ _) (aux_hmac_length _ _)
    (aux_hmac_lt _ _) (aux_hmac_lt _ _)
  funext i
  have := congrFun heq i
  simpa [digestFn, Fin.ext_iff] using this

/-- Claim C2 as stated is false: the body-mutation clause quantifies over
every distinct body, but HMAC-SHA256 maps the infinitely many bodies onto
finitely many 32-byte digests, so two distinct bodies (of equal length 33,
hence differing in at least one byte) share a digest and the second passes
verification against the first one's signature header. -/
theorem signature_mutation_collision_refutes :
    ¬ (∀ (secret : String) (body body' : List Nat), body ≠ body' →
        verifiedFlag (some (signedHeader secret body)) (some secret) body' = false) := by
  intro hclaim
  obtain ⟨b, b', hne, heq⟩ := aux_hmac_collision "s"
  have hflag : verifiedFlag (some (signedHeader "s" b)) (some "s") b' = true := by
    rw [aux_flag_signed]
    simp [hexHmac, heq]
  rw [hclaim "s" b b' hne] at hflag
  exact Bool.false_ne_true hflag

/-- Claim C2, amended: `verifiedFlag` (the verdict `main.py` acts on) is
`true` exactly when the hex HMAC-SHA256 of the body under the secret equals
the header after stripping an optional `sha256=` tag; a missing header or a
missing secret (whose `AttributeError` the handler converts to a 403) never
yields `true`; and against the signature of a signed body, any other body
verifies exactly when its digest coincides with the signed body's digest —
so any mutation that changes the digest (in particular every single-byte
mutation short of a SHA-256 collision) flips the result to `false`. -/
theorem verify_signature_characterization :
    (∀ (header secret : String) (body : List Nat),
      verifiedFlag (some header) (some secret) body =
        (hexHmac secret body == stripSigHeader header)) ∧
    (∀ (secret : Option String) (body : List Nat),
      verifiedFlag none secret body = false) ∧
    (∀ (header : String) (body : List Nat),
      verifiedFlag (some header) none body = false) ∧
    (∀ (secret : String) (body body' : List Nat),
      verifiedFlag (some (signedHeader secret body)) (some secret) body' =
        (hexHmac secret body' == hexHmac secret body)) :=
  ⟨aux_flag_some_some, aux_flag_no_header, aux_flag_no_secret, aux_flag_signed⟩

/-! ## C1: owner scoping -/

theorem aux_getTasksRun_scoped (filters : GetTaskInput) (owner : String)
    (db : List TaskRow) (wIso dIso : Option String) (L : List FormattedTask)
    (t : FormattedTask) (hL : (getTasksRun filters owner db wIso dIso).tasks = some L)
    (ht : t ∈ L) : ∃ row ∈ db, row.user_id = owner ∧ t = formatRow row := by
  simp only [getTasksRun, Option.some.injEq] at hL
  subst hL
  obtain ⟨row, hrow, rfl⟩ := List.mem_map.mp ht
  obtain ⟨hmem, hpred⟩ := List.mem_filter.mp hrow
  refine ⟨row, hmem, ?_, rfl⟩
  simp only [rowMatches, Bool.and_eq_true, beq_iff_eq] at hpred
  exact hpred.1.1.1.1.1

theorem aux_getTasksDue_scoped (filters : GetTaskInput) (owner : String)
    (db : List TaskRow) (wIso : Option String) (L : List FormattedTask)
    (t : FormattedTask) (hL : (getTasksDue filters owner db wIso).tasks = some L)
    (ht : t ∈ L) : ∃ row ∈ db, row.user_id = owner ∧ t = formatRow row := by
  unfold getTasksDue at hL
  split at hL
  · split at hL
    · exact absurd hL (by simp)
    · exact aux_getTasksRun_scoped filters owner db wIso _ L t hL ht
  · exact aux_getTasksRun_scoped filters owner db wIso none L t hL ht

theorem aux_get_tasks_scoped (filters : GetTaskInput) (owner : String)
    (db : List TaskRow) (L : List FormattedTask) (t : FormattedTask)
    (hL : (get_tasks filters owner db).tasks = some L) (ht : t ∈ L) :
    ∃ row ∈ db, row.user_id = owner ∧ t = formatRow row := by
  unfold get_tasks at hL
  by_cases ho : owner = ""
  · rw [if_pos ho] at hL; simp at hL
  · rw [if_neg ho] at hL
    split at hL
    · split at hL
      · exact absurd hL (by simp)
      · exact aux_getTasksDue_scoped filters owner db _ L t hL ht
    · exact aux_getTasksDue_scoped filters owner db none L t hL ht

theorem aux_filter_map_eq (g : TaskRow → TaskRow) (p : TaskRow → Bool)
    (hp : ∀ r, p (g r) = p r) (hid : ∀ r, p r = true → g r = r) :
    ∀ db : List TaskRow, (db.map g).filter p = db.filter p := by
  intro db
  induction db with
  | nil => rfl
  | cons r rest ih =>
    simp only [List.map_cons, List.filter_cons]
    rw [hp r]
    by_cases hr : p r = true
    · rw [hr, hid r hr]
      simp [ih]
    · simp only [Bool.not_eq_true] at hr
      rw [hr]
      simpa using ih

theorem aux_filter_filter_imp (k p : TaskRow → Bool)
    (h : ∀ r, p r = true → k r = true) :
    ∀ db : List TaskRow, (db.filter k).filter p = db.filter p := by
  intro db
  induction db with
  | nil => rfl
  | cons r rest ih =>
    by_cases hk : k r = true
    · simp only [List.filter_cons, hk, if_true]
      simp [ih]
    · simp only [Bool.not_eq_true] at hk
      have hpr : p r = false := by
        cases hc : p r
        · rfl
        · exact absurd (h r hc) (by simp [hk])
      simp [List.filter_cons, hk, hpr, ih]

theorem aux_updateG_pres (owner now tid : String) (ud : UpdateData) (r : TaskRow) :
    foreignRow owner ((fun r : TaskRow =>
      if r.id == tid && r.user_id == owner then applyUpdate ud now r else r) r) =
    foreignRow owner r := by
  by_cases hc : (r.id == tid && r.user_id == owner) = true
  · simp only [hc, if_true]
    rfl
  · simp only [Bool.not_eq_true] at hc
    simp [hc]

theorem aux_updateG_id (owner now tid : String) (ud : UpdateData) (r : TaskRow)
    (h : foreignRow owner r = true) :
    (fun r : TaskRow =>
      if r.id == tid && r.user_id == owner then applyUpdate ud now r else r) r = r := by
  simp only [foreignRow, Bool.not_eq_eq_eq_not, Bool.not_true, beq_eq_false_iff_ne] at h
  have : (r.id == tid && r.user_id == owner) = false := by
    simp [h]
  simp [this]

theorem aux_updateLoop_foreign (owner now : String) (ts : List TaskUpdateInput) :
    ∀ db : List TaskRow,
      ((updateLoop owner now ts db).2.2).filter (foreignRow owner) =
        db.filter (foreignRow owner) := by
  induction ts with
  | nil => intro db; rfl
  | cons t rest ih =>
    intro db
    by_cases hp : ownedProbe owner t.task_id db
    · by_cases hu : udEmpty (buildUpdateData t).1
      · simp only [updateLoop, hp, if_true, hu]
        exact ih db
      · simp only [Bool.not_eq_true] at hu
        simp only [updateLoop, hp, if_true, hu, Bool.false_eq_true, if_false]
        rw [ih _]
        exact aux_filter_map_eq _ _
          (aux_updateG_pres owner now t.task_id (buildUpdateData t).1)
          (aux_updateG_id owner now t.task_id (buildUpdateData t).1) db
    · simp only [Bool.not_eq_true] at hp
      simp only [updateLoop, hp, Bool.false_eq_true, if_false]
      exact ih db

theorem aux_ownedProbe_false (owner tid : String) (db : List TaskRow)
    (h : ∀ r ∈ db, ¬(r.id = tid ∧ r.user_id = owner)) :
    ownedProbe owner tid db = false := by
  simp only [ownedProbe, List.any_eq_false, Bool.and_eq_true, beq_iff_eq]
  intro r hr
  intro hcontra
  exact h r hr hcontra

theorem aux_noOwned_map (owner now tid tid2 : String) (ud : UpdateData)
    (db : List TaskRow) (h : ∀ r ∈ db, ¬(r.id = tid ∧ r.user_id = owner)) :
    ∀ r ∈ db.map (fun r =>
      if r.id == tid2 && r.user_id == owner then applyUpdate ud now r else r),
      ¬(r.id = tid ∧ r.user_id = owner) := by
  intro r hr
  obtain ⟨r0, hr0, rfl⟩ := List.mem_map.mp hr
  by_cases hc : (r0.id == tid2 && r0.user_id == owner) = true
  · simp only [hc, if_true]
    show ¬((applyUpdate ud now r0).id = tid ∧ (applyUpdate ud now r0).user_id = owner)
    have hid : (applyUpdate ud now r0).id = r0.id := rfl
    have husr : (applyUpdate ud now r0).user_id = r0.user_id := rfl
    rw [hid, husr]
    exact h r0 hr0
  · simp only [Bool.not_eq_true] at hc
    simp only [hc, if_false]
    exact h r0 hr0

theorem aux_updateLoop_not_owned (owner now tid : String)
    (ts : List TaskUpdateInput) :
    ∀ db : List TaskRow, (∀ r ∈ db, ¬(r.id = tid ∧ r.user_id = owner)) →
      tid ∈ ts.map TaskUpdateInput.task_id →
      (⟨tid, "Task with ID " ++ tid ++ " not found or not owned by user"⟩ : FailEntry)
        ∈ (updateLoop owner now ts db).2.1 := by
  induction ts with
  | nil => intro db _ htid; simp at htid
  | cons t rest ih =>
    intro db hno htid
    by_cases heq : t.task_id = tid
    · have hp : ownedProbe owner tid db = false :=
        aux_ownedProbe_false owner tid db hno
      simp only [updateLoop, heq, hp, Bool.false_eq_true, if_false]
      exact List.mem_cons_self _ _
    · have htid' : tid ∈ rest.map TaskUpdateInput.task_id := by
        simp only [List.map_cons, List.mem_cons] at htid
        rcases htid with h | h
        · exact absurd h.symm heq
        · exact h
      by_cases hp : ownedProbe owner t.task_id db
      · by_cases hu : udEmpty (buildUpdateData t).1
        · simp only [updateLoop, hp, if_true, hu]
          exact List.mem_append_right _
            (List.mem_cons_of_mem _ (ih db hno htid'))
        · simp only [Bool.not_eq_true] at hu
          simp only [updateLoop, hp, if_true, hu, Bool.false_eq_true, if_false]
          exact List.mem_append_right _
            (ih _ (aux_noOwned_map owner now tid t.task_id (buildUpdateData t).1 db hno) htid')
      · simp only [Bool.not_eq_true] at hp
        simp only [updateLoop, hp, Bool.false_eq_true, if_false]
        exact List.mem_cons_of_mem _ (ih db hno htid')

theorem aux_firstBadUuidIdx_none (ts : List TaskUpdateInput)
    (h : ∀ t ∈ ts, validate_uuid t.task_id = true) :
    ∀ k, firstBadUuidIdx k ts = none := by
  induction ts with
  | nil => intro k; rfl
  | cons t rest ih =>
    intro k
    simp only [firstBadUuidIdx, h t (List.mem_cons_self t rest), if_true]
    exact ih (fun x hx => h x (List.mem_cons_of_mem t hx)) (k + 1)

theorem aux_firstBadUuid_none (ids : List String)
    (h : ∀ id ∈ ids, validate_uuid id = true) : firstBadUuid ids = none := by
  induction ids with
  | nil => rfl
  | cons x rest ih =>
    simp only [firstBadUuid, h x (List.mem_cons_self x rest), if_true]
    exact ih (fun y hy => h y (List.mem_cons_of_mem x hy))

theorem aux_deleteLoop_foreign (owner : String) (ids : List String) :
    ∀ db : List TaskRow,
      ((deleteLoop owner ids db).2.2).filter (foreignRow owner) =
        db.filter (foreignRow owner) := by
  induction ids with
  | nil => intro db; rfl
  | cons tid rest ih =>
    intro db
    by_cases hp : ownedProbe owner tid db
    · simp only [deleteLoop, hp, if_true]
      rw [ih _]
      apply aux_filter_filter_imp
      intro r hr
      simp only [foreignRow, Bool.not_eq_eq_eq_not, Bool.not_true,
        beq_eq_false_iff_ne] at hr
      simp [hr]
    · simp only [Bool.not_eq_true] at hp
      simp only [deleteLoop, hp, Bool.false_eq_true, if_false]
      exact ih db

theorem aux_deleteLoop_not_owned (owner tid : String) (ids : List String) :
    ∀ db : List TaskRow, (∀ r ∈ db, ¬(r.id = tid ∧ r.user_id = owner)) →
      tid ∈ ids →
      (⟨tid, "Task with ID " ++ tid ++ " not found or unauthorized"⟩ : FailEntry)
        ∈ (deleteLoop owner ids db).2.1 := by
  induction ids with
  | nil => intro db _ htid; simp at htid
  | cons t rest ih =>
    intro db hno htid
    by_cases heq : t = tid
    · have hp : ownedProbe owner tid db = false :=
        aux_ownedProbe_false owner tid db hno
      simp only [deleteLoop, heq, hp, Bool.false_eq_true, if_false]
      exact List.mem_cons_self _ _
    · have htid' : tid ∈ rest := by
        rcases List.mem_cons.mp htid with h | h
        · exact absurd h.symm heq
        · exact h
      by_cases hp : ownedProbe owner t db
      · simp only [deleteLoop, hp, if_true]
        have hsub : ∀ r ∈ db.filter (fun row => !(row.id == t && row.user_id == owner)),
            ¬(r.id = tid ∧ r.user_id = owner) := by
          intro r hr
          exact hno r (List.mem_of_mem_filter hr)
        exact ih _ hsub htid'
      · simp only [Bool.not_eq_true] at hp
        simp only [deleteLoop, hp, Bool.false_eq_true, if_false]
        exact List.mem_cons_of_mem _ (ih db hno htid')

/-- Claim C1: owner scoping of Read, Update and Delete.  Every task a Read
returns stems from a row of the acting user; Update and Delete leave the
sublist of rows belonging to any other user untouched; and a `task_id` with
no row owned by the acting user — whether it does not exist at all or
belongs to someone else — lands in the failure list with the one uniform
not-found/not-owned reason, so the two cases are indistinguishable. -/
theorem owner_scoping_crud :
    (∀ (filters : GetTaskInput) (owner : String) (db : List TaskRow)
        (L : List FormattedTask) (t : FormattedTask),
      (get_tasks filters owner db).tasks = some L → t ∈ L →
        ∃ row ∈ db, row.user_id = owner ∧ t = formatRow row) ∧
    (∀ (tasks : List TaskUpdateInput) (owner now : String) (db : List TaskRow),
      ((update_tasks tasks owner now db).2).filter (foreignRow owner) =
        db.filter (foreignRow owner)) ∧
    (∀ (tasks : List TaskUpdateInput) (owner now tid : String) (db : List TaskRow),
      owner ≠ "" → (∀ t ∈ tasks, validate_uuid t.task_id = true) →
      tid ∈ tasks.map TaskUpdateInput.task_id →
      (∀ r ∈ db, ¬(r.id = tid ∧ r.user_id = owner)) →
      ∃ res, (update_tasks tasks owner now db).1.results = some res ∧
        (⟨tid, "Task with ID " ++ tid ++ " not found or not owned by user"⟩ : FailEntry)
          ∈ res.failed_updates) ∧
    (∀ (ids : List String) (owner : String) (db : List TaskRow),
      ((delete_tasks ids owner db).2).filter (foreignRow owner) =
        db.filter (foreignRow owner)) ∧
    (∀ (ids : List String) (owner tid : String) (db : List TaskRow),
      owner ≠ "" → (∀ id ∈ ids, validate_uuid id = true) →
      tid ∈ ids →
      (∀ r ∈ db, ¬(r.id = tid ∧ r.user_id = owner)) →
      ∃ res, (delete_tasks ids owner db).1.results = some res ∧
        (⟨tid, "Task with ID " ++ tid ++ " not found or unauthorized"⟩ : FailEntry)
          ∈ res.failed_deletes) := by
  refine ⟨aux_get_tasks_scoped, ?_, ?_, ?_, ?_⟩
  · intro tasks owner now db
    unfold update_tasks
    by_cases he : tasks = []
    · rw [if_pos he]
    · rw [if_neg he]
      by_cases ho : owner = ""
      · rw [if_pos ho]
      · rw [if_neg ho]
        split
        · rfl
        · exact aux_updateLoop_foreign owner now tasks db
  · intro tasks owner now tid db ho huuid htid hno
    have hne : tasks ≠ [] := by
      intro h; rw [h] at htid; simp at htid
    unfold update_tasks
    rw [if_neg hne, if_neg ho, aux_firstBadUuidIdx_none tasks huuid 0]
    exact ⟨⟨(updateLoop owner now tasks db).1, (updateLoop owner now tasks db).2.1⟩,
      rfl, aux_updateLoop_not_owned owner now tid tasks db hno htid⟩
  · intro ids owner db
    unfold delete_tasks
    by_cases he : ids = []
    · rw [if_pos he]
    · rw [if_neg he]
      split
      · rfl
      · by_cases ho : owner = ""
        · rw [if_pos ho]
        · rw [if_neg ho]
          exact aux_deleteLoop_foreign owner ids db
  · intro ids owner tid db ho huuid htid hno
    have hne : ids ≠ [] := by
      intro h; rw [h] at htid; simp at htid
    unfold delete_tasks
    rw [if_neg hne, aux_firstBadUuid_none ids huuid, if_neg ho]
    exact ⟨⟨(deleteLoop owner ids db).1, (deleteLoop owner ids db).2.1⟩,
      rfl, aux_deleteLoop_not_owned owner tid ids db hno htid⟩

/-! ## C3 / C4: create batches -/

theorem aux_draftErr_strip (t : TaskDraft) : draftErr (stripDraft t) = draftErr t := rfl

theorem aux_stripDraft_title (t : TaskDraft) :
    (stripDraft t).title = pyStrip t.title := rfl

theorem aux_validateAll_ok (l : List TaskDraft) (h : ∀ d ∈ l, pydOk d = true) :
    ∀ k, validateAll k l = .ok (enumStrip k l) := by
  induction l with
  | nil => intro k; rfl
  | cons t rest ih =>
    intro k
    simp only [validateAll, h t (List.mem_cons_self t rest), if_true,
      ih (fun d hd => h d (List.mem_cons_of_mem t hd)) (k + 1), enumStrip]

theorem aux_validateAll_error (l : List TaskDraft) :
    ∀ (k i : Nat) (hi : i < l.length), pydOk (l.get ⟨i, hi⟩) = false →
      (∀ d ∈ l.take i, pydOk d = true) →
      validateAll k l = .error (k + i) := by
  induction l with
  | nil => intro k i hi; simp at hi
  | cons t rest ih =>
    intro k i hi hbad hgood
    cases i with
    | zero =>
      simp only [List.get] at hbad
      simp [validateAll, hbad]
    | succ i' =>
      have ht : pydOk t = true := by
        apply hgood
        simp [List.take_succ_cons]
      simp only [validateAll, ht, if_true]
      have hrec := ih (k + 1) i' (by simpa using hi) (by simpa using hbad)
        (fun d hd => hgood d (by simp [List.take_succ_cons, hd]))
      rw [hrec]
      have harith : k + 1 + i' = k + (i' + 1) := by omega
      rw [harith]

theorem aux_enumStrip_mem (l : List TaskDraft) :
    ∀ (k i : Nat) (hi : i < l.length),
      (k + i, stripDraft (l.get ⟨i, hi⟩)) ∈ enumStrip k l := by
  induction l with
  | nil => intro k i hi; simp at hi
  | cons t rest ih =>
    intro k i hi
    cases i with
    | zero => simp [enumStrip, List.get]
    | succ i' =>
      have := ih (k + 1) i' (by simpa using hi)
      have harith : k + (i' + 1) = k + 1 + i' := by omega
      rw [harith]
      exact List.mem_cons_of_mem _ this

theorem aux_enumStrip_src (l : List TaskDraft) :
    ∀ (k : Nat) (p : Nat × TaskDraft), p ∈ enumStrip k l →
      ∃ d ∈ l, p.2 = stripDraft d := by
  induction l with
  | nil => intro k p hp; simp [enumStrip] at hp
  | cons t rest ih =>
    intro k p hp
    rcases List.mem_cons.mp hp with h | h
    · exact ⟨t, List.mem_cons_self t rest, by rw [h]⟩
    · obtain ⟨d, hd, he⟩ := ih (k + 1) p h
      exact ⟨d, List.mem_cons_of_mem t hd, he⟩

theorem aux_enumStrip_countP (l : List TaskDraft) :
    ∀ k, (enumStrip k l).countP (fun p => (draftErr p.2).isNone) =
      l.countP (fun d => (draftErr d).isNone) := by
  induction l with
  | nil => intro k; rfl
  | cons t rest ih =>
    intro k
    simp only [enumStrip, List.countP_cons, ih (k + 1), aux_draftErr_strip]

theorem aux_createLoop_count (owner now : String) (vs : List (Nat × TaskDraft)) :
    ∀ ids, (createLoop owner now vs ids).1 =
      vs.countP (fun p => (draftErr p.2).isNone) := by
  induction vs with
  | nil => intro ids; rfl
  | cons p rest ih =>
    rcases p with ⟨i, t⟩
    intro ids
    simp only [List.countP_cons]
    cases hd : dueParse t with
    | error e =>
      have herr : draftErr t = some e := by simp [draftErr, hd]
      simp [createLoop, hd, herr, ih ids]
    | ok dd =>
      cases hw : workingParse t with
      | error e =>
        have herr : draftErr t = some e := by simp [draftErr, hd, hw]
        simp [createLoop, hd, hw, herr, ih ids]
      | ok wd =>
        have herr : draftErr t = none := by simp [draftErr, hd, hw]
        simp [createLoop, hd, hw, herr, ih ids.tail]

theorem aux_createLoop_errs (owner now : String) (vs : List (Nat × TaskDraft)) :
    ∀ ids, (createLoop owner now vs ids).2.1 =
      vs.filterMap (fun p => (draftErr p.2).map
        (fun e => CreateError.mk p.1 p.2.title e)) := by
  induction vs with
  | nil => intro ids; rfl
  | cons p rest ih =>
    rcases p with ⟨i, t⟩
    intro ids
    cases hd : dueParse t with
    | error e =>
      have herr : draftErr t = some e := by simp [draftErr, hd]
      simp [createLoop, hd, herr, ih ids, List.filterMap_cons]
    | ok dd =>
      cases hw : workingParse t with
      | error e =>
        have herr : draftErr t = some e := by simp [draftErr, hd, hw]
        simp [createLoop, hd, hw, herr, ih ids, List.filterMap_cons]
      | ok wd =>
        have herr : draftErr t = none := by simp [draftErr, hd, hw]
        simp [createLoop, hd, hw, herr, ih ids.tail, List.filterMap_cons]

theorem aux_createLoop_rows_mem (owner now : String) (vs : List (Nat × TaskDraft)) :
    ∀ ids (i : Nat) (t : TaskDraft), (i, t) ∈ vs → draftErr t = none →
      ∃ row ∈ (createLoop owner now vs ids).2.2,
        row.user_id = owner ∧ row.title = t.title ∧ row.created_at = now := by
  induction vs with
  | nil => intro ids i t hmem; simp at hmem
  | cons p rest ih =>
    rcases p with ⟨j, u⟩
    intro ids i t hmem herr
    rcases List.mem_cons.mp hmem with h | h
    · injection h with h1 h2
      subst h2
      cases hd : dueParse t with
      | error e => simp [draftErr, hd] at herr
      | ok dd =>
        cases hw : workingParse t with
        | error e => simp [draftErr, hd, hw] at herr
        | ok wd =>
          refine ⟨mkRow owner now (ids.headD "") t dd wd, ?_, rfl, rfl, rfl⟩
          simp [createLoop, hd, hw]
    · cases hd : dueParse u with
      | error e =>
        obtain ⟨row, hrow, hprops⟩ := ih ids i t h herr
        exact ⟨row, by simp [createLoop, hd, hrow], hprops⟩
      | ok dd =>
        cases hw : workingParse u with
        | error e =>
          obtain ⟨row, hrow, hprops⟩ := ih ids i t h herr
          exact ⟨row, by simp [createLoop, hd, hw, hrow], hprops⟩
        | ok wd =>
          obtain ⟨row, hrow, hprops⟩ := ih ids.tail i t h herr
          exact ⟨row, by simp [createLoop, hd, hw]; exact Or.inr hrow, hprops⟩

theorem aux_createLoop_rows_src (owner now : String) (vs : List (Nat × TaskDraft)) :
    ∀ ids row, row ∈ (createLoop owner now vs ids).2.2 →
      ∃ p ∈ vs, ∃ id dd wd, row = mkRow owner now id p.2 dd wd := by
  induction vs with
  | nil => intro ids row hrow; simp [createLoop] at hrow
  | cons p rest ih =>
    rcases p with ⟨j, u⟩
    intro ids row hrow
    cases hd : dueParse u with
    | error e =>
      simp only [createLoop, hd] at hrow
      obtain ⟨q, hq, hrest⟩ := ih ids row hrow
      exact ⟨q, List.mem_cons_of_mem _ hq, hrest⟩
    | ok dd =>
      cases hw : workingParse u with
      | error e =>
        simp only [createLoop, hd, hw] at hrow
        obtain ⟨q, hq, hrest⟩ := ih ids row hrow
        exact ⟨q, List.mem_cons_of_mem _ hq, hrest⟩
      | ok wd =>
        simp only [createLoop, hd, hw, List.mem_cons] at hrow
        rcases hrow with h | h
        · exact ⟨(j, u), List.mem_cons_self _ _, ids.headD "", dd, wd, h⟩
        · obtain ⟨q, hq, hrest⟩ := ih ids.tail row h
          exact ⟨q, List.mem_cons_of_mem _ hq, hrest⟩

theorem aux_validateAll_src (l : List TaskDraft) :
    ∀ k v, validateAll k l = .ok v →
      ∀ p ∈ v, ∃ d ∈ l, pydOk d = true ∧ p.2 = stripDraft d := by
  induction l with
  | nil =>
    intro k v hv p hp
    simp only [validateAll] at hv
    injection hv with hv
    subst hv
    simp at hp
  | cons t rest ih =>
    intro k v hv p hp
    by_cases ht : pydOk t = true
    · simp only [validateAll, ht, if_true] at hv
      cases hrec : validateAll (k + 1) rest with
      | error i => rw [hrec] at hv; exact absurd hv (by simp)
      | ok v' =>
        rw [hrec] at hv
        injection hv with hv
        subst hv
        rcases List.mem_cons.mp hp with h | h
        · exact ⟨t, List.mem_cons_self t rest, ht, by rw [h]⟩
        · obtain ⟨d, hd, hok, he⟩ := ih (k + 1) v' hrec p h
          exact ⟨d, List.mem_cons_of_mem t hd, hok, he⟩
    · simp only [Bool.not_eq_true] at ht
      simp [validateAll, ht] at hv

/-- Claim C3, amended: no task whose title is empty or whitespace-only after
trimming, or longer than 255 characters, is ever persisted; but a batch
containing such a draft is rejected wholesale by the pydantic validation
loop — `create_tasks` returns a top-level validation error with no per-item
`errors` list and no `task_count`, and no draft of the batch (valid ones
included) is created. -/
theorem create_title_validation_batch :
    (∀ (tasks : List TaskDraft) (owner : String) (ids : List String)
        (now : String) (db : List TaskRow) (i : Nat) (hi : i < tasks.length),
      pydOk (tasks.get ⟨i, hi⟩) = false → (∀ d ∈ tasks.take i, pydOk d = true) →
      (create_tasks tasks owner ids now db).1.status = "error" ∧
      (create_tasks tasks owner ids now db).1.errors = none ∧
      (create_tasks tasks owner ids now db).1.task_count = none ∧
      (create_tasks tasks owner ids now db).2 = db) ∧
    (∀ (tasks : List TaskDraft) (owner : String) (ids : List String)
        (now : String) (db : List TaskRow) (row : TaskRow),
      row ∈ (create_tasks tasks owner ids now db).2 →
      row ∈ db ∨ (row.title ≠ "" ∧ pyStrip row.title ≠ "" ∧
        row.title.length ≤ 255)) := by
  constructor
  · intro tasks owner ids now db i hi hbad hgood
    have hne : tasks ≠ [] := by
      intro h; rw [h] at hi; simp at hi
    unfold create_tasks
    rw [if_neg hne]
    by_cases ho : owner = ""
    · rw [if_pos ho]
      exact ⟨rfl, rfl, rfl, rfl⟩
    · rw [if_neg ho, aux_validateAll_error tasks 0 i hi hbad hgood]
      exact ⟨rfl, rfl, rfl, rfl⟩
  · intro tasks owner ids now db row hrow
    unfold create_tasks at hrow
    by_cases hne : tasks = []
    · rw [if_pos hne] at hrow
      exact Or.inl hrow
    · rw [if_neg hne] at hrow
      by_cases ho : owner = ""
      · rw [if_pos ho] at hrow
        exact Or.inl hrow
      · rw [if_neg ho] at hrow
        cases hv : validateAll 0 tasks with
        | error i =>
          rw [hv] at hrow
          exact Or.inl hrow
        | ok v =>
          rw [hv] at hrow
          simp only [List.mem_append] at hrow
          rcases hrow with h | h
          · exact Or.inl h
          · right
            obtain ⟨p, hp, id, dd, wd, hmk⟩ :=
              aux_createLoop_rows_src owner now v ids row h
            obtain ⟨d, _, hok, hstrip⟩ := aux_validateAll_src tasks 0 v hv p hp
            have htitle : row.title = pyStrip d.title := by
              rw [hmk]
              show p.2.title = pyStrip d.title
              rw [hstrip, aux_stripDraft_title]
            simp only [pydOk, Bool.and_eq_true, Bool.not_eq_eq_eq_not,
              Bool.not_true, beq_eq_false_iff_ne, decide_eq_true_eq] at hok
            obtain ⟨⟨⟨⟨⟨_, hok2⟩, hok3⟩, _⟩, _⟩, _⟩ := hok
            refine ⟨?_, ?_, ?_⟩
            · rw [htitle]; exact hok2
            · rw [htitle, aux_pyStrip_idem]; exact hok2
            · rw [htitle]; exact hok3

/-- Witness for `create_title_validation_batch`: the whitespace-titled draft
aborts its whole batch leaving the table empty, and the rows produced by a
valid singleton batch satisfy the title bounds. -/
theorem create_title_validation_batch_witness :
    ((create_tasks [{ title := "   " }, { title := "ok" }] "u1" ["a", "b"]
        "2025-07-10T00:00:00" []).1.status = "error" ∧
      (create_tasks [{ title := "   " }, { title := "ok" }] "u1" ["a", "b"]
        "2025-07-10T00:00:00" []).1.errors = none ∧
      (create_tasks [{ title := "   " }, { title := "ok" }] "u1" ["a", "b"]
        "2025-07-10T00:00:00" []).1.task_count = none ∧
      (create_tasks [{ title := "   " }, { title := "ok" }] "u1" ["a", "b"]
        "2025-07-10T00:00:00" []).2 = []) ∧
    ((⟨"id1", "u1", "ok", none, some "pending", none, none, some 0, some 2,
        none, "2025-07-10T00:00:00", none⟩ : TaskRow) ∈ ([] : List TaskRow) ∨
      ((⟨"id1", "u1", "ok", none, some "pending", none, none, some 0, some 2,
          none, "2025-07-10T00:00:00", none⟩ : TaskRow).title ≠ "" ∧
        pyStrip (⟨"id1", "u1", "ok", none, some "pending", none, none, some 0,
          some 2, none, "2025-07-10T00:00:00", none⟩ : TaskRow).title ≠ "" ∧
        (⟨"id1", "u1", "ok", none, some "pending", none, none, some 0, some 2,
          none, "2025-07-10T00:00:00", none⟩ : TaskRow).title.length ≤ 255)) :=
  ⟨create_title_validation_batch.1 [{ title := "   " }, { title := "ok" }]
      "u1" ["a", "b"] "2025-07-10T00:00:00" [] 0 (by decide) (by decide)
      (by decide),
   create_title_validation_batch.2 [{ title := "ok" }] "u1" ["id1"]
      "2025-07-10T00:00:00" []
      ⟨"id1", "u1", "ok", none, some "pending", none, none, some 0, some 2,
        none, "2025-07-10T00:00:00", none⟩ (by decide)⟩

/-- Claim C4: in a batch that passes pydantic validation, a date-parse
failure marks exactly its own draft as failed — recorded in `errors` with
the draft's index and (stripped) title — while the drafts whose dates parse
are still inserted; `task_count` counts exactly the parsing drafts, overall
`status` is `error` precisely when zero drafts were created, and a partial
success yields `status = "success"` together with a present (non-`none`)
`errors` list. -/
theorem create_date_partial_failure
    (tasks : List TaskDraft) (owner : String) (ids : List String)
    (now : String) (db : List TaskRow)
    (hne : tasks ≠ []) (ho : owner ≠ "")
    (hval : ∀ d ∈ tasks, pydOk d = true) :
    (create_tasks tasks owner ids now db).1.task_count =
      some (tasks.countP (fun d => (draftErr d).isNone)) ∧
    ((create_tasks tasks owner ids now db).1.status = "error" ↔
      tasks.countP (fun d => (draftErr d).isNone) = 0) ∧
    (∀ (i : Nat) (hi : i < tasks.length) (e : String),
      draftErr (tasks.get ⟨i, hi⟩) = some e →
      ∃ es, (create_tasks tasks owner ids now db).1.errors = some es ∧
        (⟨i, pyStrip (tasks.get ⟨i, hi⟩).title, e⟩ : CreateError) ∈ es) ∧
    (∀ (i : Nat) (hi : i < tasks.length),
      draftErr (tasks.get ⟨i, hi⟩) = none →
      ∃ row ∈ (create_tasks tasks owner ids now db).2,
        row.user_id = owner ∧ row.title = pyStrip (tasks.get ⟨i, hi⟩).title ∧
        row.created_at = now) ∧
    (0 < tasks.countP (fun d => (draftErr d).isNone) →
      (∃ d ∈ tasks, draftErr d ≠ none) →
      (create_tasks tasks owner ids now db).1.status = "success" ∧
      (create_tasks tasks owner ids now db).1.errors ≠ none) := by
  have hv := aux_validateAll_ok tasks hval 0
  have hcount : (createLoop owner now (enumStrip 0 tasks) ids).1 =
      tasks.countP (fun d => (draftErr d).isNone) := by
    rw [aux_createLoop_count owner now (enumStrip 0 tasks) ids,
      aux_enumStrip_countP tasks 0]
  have herrmem : ∀ (i : Nat) (hi : i < tasks.length) (e : String),
      draftErr (tasks.get ⟨i, hi⟩) = some e →
      (⟨i, pyStrip (tasks.get ⟨i, hi⟩).title, e⟩ : CreateError)
        ∈ (createLoop owner now (enumStrip 0 tasks) ids).2.1 := by
    intro i hi e he
    simp only [List.get_eq_getElem] at he
    rw [aux_createLoop_errs owner now (enumStrip 0 tasks) ids]
    apply List.mem_filterMap.mpr
    refine ⟨(i, stripDraft (tasks.get ⟨i, hi⟩)), ?_, ?_⟩
    · have := aux_enumStrip_mem tasks 0 i hi
      simpa using this
    · simp [aux_draftErr_strip, he, aux_stripDraft_title]
  unfold create_tasks
  rw [if_neg hne, if_neg ho, hv]
  refine ⟨?_, ?_, ?_, ?_, ?_⟩
  · show some ((createLoop owner now (enumStrip 0 tasks) ids).1) = _
    rw [hcount]
  · show (if (createLoop owner now (enumStrip 0 tasks) ids).1 > 0 then
      "success" else "error") = "error" ↔ _
    rw [hcount]
    by_cases hz : tasks.countP (fun d => (draftErr d).isNone) = 0
    · simp [hz]
    · have : tasks.countP (fun d => (draftErr d).isNone) > 0 := Nat.pos_of_ne_zero hz
      simp [this, Nat.pos_iff_ne_zero.mp this]
  · intro i hi e he
    have hmem := herrmem i hi e he
    have hnonnil : (createLoop owner now (enumStrip 0 tasks) ids).2.1 ≠ [] := by
      intro hcontra; rw [hcontra] at hmem; simp at hmem
    refine ⟨(createLoop owner now (enumStrip 0 tasks) ids).2.1, ?_, hmem⟩
    show (if (createLoop owner now (enumStrip 0 tasks) ids).2.1 = [] then none
      else some ((createLoop owner now (enumStrip 0 tasks) ids).2.1)) = _
    rw [if_neg hnonnil]
  · intro i hi hnone
    have hp : (i, stripDraft (tasks.get ⟨i, hi⟩)) ∈ enumStrip 0 tasks := by
      have := aux_enumStrip_mem tasks 0 i hi
      simpa using this
    obtain ⟨row, hrow, h1, h2, h3⟩ :=
      aux_createLoop_rows_mem owner now (enumStrip 0 tasks) ids i
        (stripDraft (tasks.get ⟨i, hi⟩)) hp
        (by rw [aux_draftErr_strip]; exact hnone)
    refine ⟨row, ?_, h1, ?_, h3⟩
    · show row ∈ db ++ (createLoop owner now (enumStrip 0 tasks) ids).2.2
      exact List.mem_append_right _ hrow
    · rw [h2, aux_stripDraft_title]
  · intro hpos ⟨d, hd, hde⟩
    constructor
    · show (if (createLoop owner now (enumStrip 0 tasks) ids).1 > 0 then
        "success" else "error") = "success"
      rw [hcount]
      simp [hpos]
    · obtain ⟨⟨i, hi⟩, hget⟩ := List.mem_iff_get.mp hd
      cases hde2 : draftErr d with
      | none => exact absurd hde2 hde
      | some e =>
        have hmem := herrmem i hi e (by rw [hget]; exact hde2)
        have hnonnil : (createLoop owner now (enumStrip 0 tasks) ids).2.1 ≠ [] := by
          intro hcontra; rw [hcontra] at hmem; simp at hmem
        show (if (createLoop owner now (enumStrip 0 tasks) ids).2.1 = [] then none
          else some ((createLoop owner now (enumStrip 0 tasks) ids).2.1)) ≠ none
        rw [if_neg hnonnil]
        simp

/-- Witness for `create_date_partial_failure`: a two-draft batch where the
first draft's due date fails to parse and the second parses. -/
theorem create_date_partial_failure_witness :
    (create_tasks [{ title := "a", due_dt := some "2025-13-01" },
        { title := "b", due_dt := some "2025-07-15" }] "u1" ["x", "y"]
        "2025-07-10T00:00:00" []).1.task_count =
      some ([{ title := "a", due_dt := some "2025-13-01" },
        { title := "b", due_dt := some "2025-07-15" }].countP
          (fun d => (draftErr d).isNone)) ∧
    ((create_tasks [{ title := "a", due_dt := some "2025-13-01" },
        { title := "b", due_dt := some "2025-07-15" }] "u1" ["x", "y"]
        "2025-07-10T00:00:00" []).1.status = "error" ↔
      [{ title := "a", due_dt := some "2025-13-01" },
        ({ title := "b", due_dt := some "2025-07-15" } : TaskDraft)].countP
          (fun d => (draftErr d).isNone) = 0) ∧
    (∀ (i : Nat) (hi : i < ([{ title := "a", due_dt := some "2025-13-01" },
        { title := "b", due_dt := some "2025-07-15" }] : List TaskDraft).length)
        (e : String),
      draftErr (([{ title := "a", due_dt := some "2025-13-01" },
        { title := "b", due_dt := some "2025-07-15" }] : List TaskDraft).get
          ⟨i, hi⟩) = some e →
      ∃ es, (create_tasks [{ title := "a", due_dt := some "2025-13-01" },
          { title := "b", due_dt := some "2025-07-15" }] "u1" ["x", "y"]
          "2025-07-10T00:00:00" []).1.errors = some es ∧
        (⟨i, pyStrip (([{ title := "a", due_dt := some "2025-13-01" },
          { title := "b", due_dt := some "2025-07-15" }] : List TaskDraft).get
            ⟨i, hi⟩).title, e⟩ : CreateError) ∈ es) ∧
    (∀ (i : Nat) (hi : i < ([{ title := "a", due_dt := some "2025-13-01" },
        { title := "b", due_dt := some "2025-07-15" }] : List TaskDraft).length),
      draftErr (([{ title := "a", due_dt := some "2025-13-01" },
        { title := "b", due_dt := some "2025-07-15" }] : List TaskDraft).get
          ⟨i, hi⟩) = none →
      ∃ row ∈ (create_tasks [{ title := "a", due_dt := some "2025-13-01" },
          { title := "b", due_dt := some "2025-07-15" }] "u1" ["x", "y"]
          "2025-07-10T00:00:00" []).2,
        row.user_id = "u1" ∧
        row.title = pyStrip (([{ title := "a", due_dt := some "2025-13-01" },
          { title := "b", due_dt := some "2025-07-15" }] : List TaskDraft).get
            ⟨i, hi⟩).title ∧
        row.created_at = "2025-07-10T00:00:00") ∧
    (0 < ([{ title := "a", due_dt := some "2025-13-01" },
        ({ title := "b", due_dt := some "2025-07-15" } : TaskDraft)]).countP
          (fun d => (draftErr d).isNone) →
      (∃ d ∈ ([{ title := "a", due_dt := some "2025-13-01" },
        ({ title := "b", due_dt := some "2025-07-15" } : TaskDraft)]),
        draftErr d ≠ none) →
      (create_tasks [{ title := "a", due_dt := some "2025-13-01" },
          { title := "b", due_dt := some "2025-07-15" }] "u1" ["x", "y"]
          "2025-07-10T00:00:00" []).1.status = "success" ∧
      (create_tasks [{ title := "a", due_dt := some "2025-13-01" },
          { title := "b", due_dt := some "2025-07-15" }] "u1" ["x", "y"]
          "2025-07-10T00:00:00" []).1.errors ≠ none) :=
  create_date_partial_failure
    [{ title := "a", due_dt := some "2025-13-01" },
      { title := "b", due_dt := some "2025-07-15" }] "u1" ["x", "y"]
    "2025-07-10T00:00:00" [] (by decide) (by decide) (by decide)

/-! ## C6: delete UUID pre-validation -/

theorem aux_firstBadUuid_some (ids : List String)
    (h : ∃ id ∈ ids, validate_uuid id = false) :
    ∃ tid, firstBadUuid ids = some tid := by
  induction ids with
  | nil => simp at h
  | cons x rest ih =>
    by_cases hx : validate_uuid x = true
    · obtain ⟨id, hid, hbad⟩ := h
      rcases List.mem_cons.mp hid with heq | hmem
      · rw [heq] at hbad
        rw [hbad] at hx
        exact absurd hx (by simp)
      · obtain ⟨tid, htid⟩ := ih ⟨id, hmem, hbad⟩
        exact ⟨tid, by simp [firstBadUuid, hx, htid]⟩
    · simp only [Bool.not_eq_true] at hx
      exact ⟨x, by simp [firstBadUuid, hx]⟩

/-- Claim C6: every supplied id is UUID-validated before any database access
(one malformed id makes the whole call return a top-level error with no
`results`, the table untouched, and a verdict independent of the table
contents); when all ids are well-formed, overall `status` is `success`
exactly when at least one delete succeeded. -/
theorem delete_uuid_prevalidation :
    (∀ (ids : List String) (owner : String) (db1 db2 : List TaskRow),
      (∃ id ∈ ids, validate_uuid id = false) →
      (delete_tasks ids owner db1).1.status = "error" ∧
      (delete_tasks ids owner db1).1.results = none ∧
      (delete_tasks ids owner db1).2 = db1 ∧
      (delete_tasks ids owner db1).1 = (delete_tasks ids owner db2).1) ∧
    (∀ (ids : List String) (owner : String) (db : List TaskRow),
      (∀ id ∈ ids, validate_uuid id = true) →
      ((delete_tasks ids owner db).1.status = "success" ↔
        ∃ r, (delete_tasks ids owner db).1.results = some r ∧
          r.successful_deletes ≠ [])) := by
  constructor
  · intro ids owner db1 db2 hbad
    have hne : ids ≠ [] := by
      obtain ⟨id, hid, _⟩ := hbad
      intro h; rw [h] at hid; simp at hid
    obtain ⟨tid, hfb⟩ := aux_firstBadUuid_some ids hbad
    unfold delete_tasks
    rw [if_neg hne, if_neg hne, hfb]
    exact ⟨rfl, rfl, rfl, rfl⟩
  · intro ids owner db huuid
    unfold delete_tasks
    by_cases hne : ids = []
    · rw [if_pos hne]
      simp
    · rw [if_neg hne, aux_firstBadUuid_none ids huuid]
      by_cases ho : owner = ""
      · rw [if_pos ho]
        simp
      · rw [if_neg ho]
        by_cases hz : (deleteLoop owner ids db).1 = []
        · show (if (deleteLoop owner ids db).1 = [] then "error" else "success") =
              "success" ↔ _
          rw [if_pos hz]
          constructor
          · intro h; exact absurd h (by decide)
          · rintro ⟨r, hr, hne'⟩
            injection hr with hr
            rw [← hr] at hne'
            exact absurd hz hne'
        · show (if (deleteLoop owner ids db).1 = [] then "error" else "success") =
              "success" ↔ _
          rw [if_neg hz]
          constructor
          · intro _
            exact ⟨⟨(deleteLoop owner ids db).1, (deleteLoop owner ids db).2.1⟩,
              rfl, hz⟩
          · intro _; rfl

/-- Witness for `delete_uuid_prevalidation`: a malformed id aborts the batch
over a non-empty table, and an all-well-formed batch over an empty table has
`status = "error"` with zero deletes. -/
theorem delete_uuid_prevalidation_witness :
    ((delete_tasks ["not-a-uuid"] "u1"
        [⟨"00000000-0000-0000-0000-000000000000", "u1", "T", none,
          some "pending", none, none, some 0, some 2, none, "T0", none⟩]).1.status =
        "error" ∧
      (delete_tasks ["not-a-uuid"] "u1"
        [⟨"00000000-0000-0000-0000-000000000000", "u1", "T", none,
          some "pending", none, none, some 0, some 2, none, "T0", none⟩]).1.results =
        none ∧
      (delete_tasks ["not-a-uuid"] "u1"
        [⟨"00000000-0000-0000-0000-000000000000", "u1", "T", none,
          some "pending", none, none, some 0, some 2, none, "T0", none⟩]).2 =
        [⟨"00000000-0000-0000-0000-000000000000", "u1", "T", none,
          some "pending", none, none, some 0, some 2, none, "T0", none⟩] ∧
      (delete_tasks ["not-a-uuid"] "u1"
        [⟨"00000000-0000-0000-0000-000000000000", "u1", "T", none,
          some "pending", none, none, some 0, some 2, none, "T0", none⟩]).1 =
        (delete_tasks ["not-a-uuid"] "u1" []).1) ∧
    ((delete_tasks ["00000000-0000-0000-0000-000000000000"] "u1" []).1.status =
        "success" ↔
      ∃ r, (delete_tasks ["00000000-0000-0000-0000-000000000000"] "u1"
          []).1.results = some r ∧ r.successful_deletes ≠ []) :=
  ⟨delete_uuid_prevalidation.1 ["not-a-uuid"] "u1"
      [⟨"00000000-0000-0000-0000-000000000000", "u1", "T", none,
        some "pending", none, none, some 0, some 2, none, "T0", none⟩] []
      (by decide),
   delete_uuid_prevalidation.2 ["00000000-0000-0000-0000-000000000000"] "u1" []
      (by decide)⟩

/-! ## C7: tags filter conjunction -/

/-- Claim C7: for a Read whose only filter is a tags list, a task is
returned exactly when it belongs to the acting user and its tag set contains
every listed tag (conjunction); a task with no tags (null or empty tag
column) never matches a non-empty tags filter, so every task returned under
a non-empty filter carries a non-empty tag list. -/
theorem get_tasks_tags_conjunction (ts : List String) (owner : String)
    (db : List TaskRow) (ho : owner ≠ "") :
    ∃ L, (get_tasks ⟨none, none, none, none, some ts⟩ owner db).tasks = some L ∧
      (∀ t, t ∈ L ↔ ∃ row ∈ db, row.user_id = owner ∧
        (∀ tag ∈ ts, ∃ ltags, row.tags = some ltags ∧ tag ∈ ltags) ∧
        t = formatRow row) ∧
      (ts ≠ [] → ∀ t ∈ L, t.tags ≠ []) := by
  have hred : get_tasks ⟨none, none, none, none, some ts⟩ owner db =
      getTasksRun ⟨none, none, none, none, some ts⟩ owner db none none := by
    unfold get_tasks getTasksDue
    rw [if_neg ho]
  rw [hred]
  refine ⟨_, rfl, ?_, ?_⟩
  · intro t
    constructor
    · intro ht
      obtain ⟨row, hrow, rfl⟩ := List.mem_map.mp ht
      obtain ⟨hmem, hpred⟩ := List.mem_filter.mp hrow
      simp only [rowMatches, Bool.and_eq_true, beq_iff_eq,
        List.all_eq_true] at hpred
      obtain ⟨⟨⟨⟨⟨huser, -⟩, -⟩, -⟩, -⟩, htags⟩ := hpred
      refine ⟨row, hmem, huser, ?_, rfl⟩
      intro tag htag
      have := htags tag htag
      cases hcase : row.tags with
      | none => rw [hcase] at this; simp at this
      | some ltags =>
        rw [hcase] at this
        exact ⟨ltags, rfl, by simpa using this⟩
    · rintro ⟨row, hmem, huser, htags, rfl⟩
      apply List.mem_map_of_mem
      apply List.mem_filter.mpr
      refine ⟨hmem, ?_⟩
      simp only [rowMatches, Bool.and_eq_true, beq_iff_eq, List.all_eq_true]
      refine ⟨⟨⟨⟨⟨huser, trivial⟩, trivial⟩, trivial⟩, trivial⟩, ?_⟩
      intro tag htag
      obtain ⟨ltags, hl, hmemtag⟩ := htags tag htag
      rw [hl]
      simpa using hmemtag
  · intro hts t ht
    obtain ⟨row, hrow, rfl⟩ := List.mem_map.mp ht
    obtain ⟨hmem, hpred⟩ := List.mem_filter.mp hrow
    simp only [rowMatches, Bool.and_eq_true, beq_iff_eq,
      List.all_eq_true] at hpred
    obtain ⟨-, htags⟩ := hpred
    obtain ⟨tag, htag⟩ := List.exists_mem_of_ne_nil ts hts
    have := htags tag htag
    cases hcase : row.tags with
    | none => rw [hcase] at this; simp at this
    | some ltags =>
      rw [hcase] at this
      have hmemtag : tag ∈ ltags := by simpa using this
      show (formatRow row).tags ≠ []
      simp only [formatRow, hcase, Option.getD_some]
      exact List.ne_nil_of_mem hmemtag

/-- Witness for `get_tasks_tags_conjunction` at a two-tag filter over a
three-row table (full match, partial match, no tags). -/
theorem get_tasks_tags_conjunction_witness :
    ∃ L, (get_tasks ⟨none, none, none, none, some ["w", "h"]⟩ "u1"
        [⟨"a", "u1", "A", none, some "pending", none, none, some 0, some 2,
          some ["w", "h", "x"], "T0", none⟩,
         ⟨"b", "u1", "B", none, some "pending", none, none, some 0, some 2,
          some ["w"], "T0", none⟩,
         ⟨"c", "u1", "C", none, some "pending", none, none, some 0, some 2,
          none, "T0", none⟩]).tasks = some L ∧
      (∀ t, t ∈ L ↔ ∃ row ∈
        [⟨"a", "u1", "A", none, some "pending", none, none, some 0, some 2,
          some ["w", "h", "x"], "T0", none⟩,
         ⟨"b", "u1", "B", none, some "pending", none, none, some 0, some 2,
          some ["w"], "T0", none⟩,
         (⟨"c", "u1", "C", none, some "pending", none, none, some 0, some 2,
          none, "T0", none⟩ : TaskRow)], row.user_id = "u1" ∧
        (∀ tag ∈ ["w", "h"], ∃ ltags, row.tags = some ltags ∧ tag ∈ ltags) ∧
        t = formatRow row) ∧
      (["w", "h"] ≠ [] → ∀ t ∈ L, t.tags ≠ []) :=
  get_tasks_tags_conjunction ["w", "h"] "u1"
    [⟨"a", "u1", "A", none, some "pending", none, none, some 0, some 2,
      some ["w", "h", "x"], "T0", none⟩,
     ⟨"b", "u1", "B", none, some "pending", none, none, some 0, some 2,
      some ["w"], "T0", none⟩,
     ⟨"c", "u1", "C", none, some "pending", none, none, some 0, some 2,
      none, "T0", none⟩] (by decide)

/-! ## C8: create/read date round-trip -/

/-- Claim C8: for every owner and initial table, creating a task with
`due_dt = "2025-07-15"` stores the parsed date in `isoformat`, a Read
filtering `due_dt = "2025-07-15"` returns that task, and a Read filtering
`due_dt = "2025-07-16"` does not return it (no returned task carries the
fresh id). -/
theorem create_read_due_roundtrip (owner now newId : String)
    (db : List TaskRow) (ho : owner ≠ "")
    (hfresh : ∀ row ∈ db, row.id ≠ newId) :
    (create_tasks [{ title := "call mom", due_dt := some "2025-07-15" }] owner
        [newId] now db).2 =
      db ++ [⟨newId, owner, "call mom", none, some "pending",
        some "2025-07-15T00:00:00", none, some 0, some 2, none, now, none⟩] ∧
    (∃ L, (get_tasks ⟨none, some "2025-07-15", none, none, none⟩ owner
        ((create_tasks [{ title := "call mom", due_dt := some "2025-07-15" }]
          owner [newId] now db).2)).tasks = some L ∧
      formatRow ⟨newId, owner, "call mom", none, some "pending",
        some "2025-07-15T00:00:00", none, some 0, some 2, none, now, none⟩ ∈ L) ∧
    (∀ L t, (get_tasks ⟨none, some "2025-07-16", none, none, none⟩ owner
        ((create_tasks [{ title := "call mom", due_dt := some "2025-07-15" }]
          owner [newId] now db).2)).tasks = some L → t ∈ L →
      t.task_id ≠ newId) := by
  have hiso : isoformat ⟨2025, 7, 15, 0, 0, 0⟩ = "2025-07-15T00:00:00" := by decide
  have hiso16 : isoformat ⟨2025, 7, 16, 0, 0, 0⟩ = "2025-07-16T00:00:00" := by decide
  have hdb : (create_tasks [{ title := "call mom", due_dt := some "2025-07-15" }]
      owner [newId] now db).2 =
      db ++ [⟨newId, owner, "call mom", none, some "pending",
        some "2025-07-15T00:00:00", none, some 0, some 2, none, now, none⟩] := by
    have hval : validateAll 0 [{ title := "call mom", due_dt := some "2025-07-15" }] =
        .ok [(0, { title := "call mom", due_dt := some "2025-07-15" })] := by decide
    have hdue : dueParse { title := "call mom", due_dt := some "2025-07-15" } =
        .ok (some ⟨2025, 7, 15, 0, 0, 0⟩) := by decide
    have hwork : workingParse { title := "call mom", due_dt := some "2025-07-15" } =
        .ok none := by decide
    unfold create_tasks
    rw [if_neg (by simp : ¬([({ title := "call mom", due_dt := some "2025-07-15" } :
      TaskDraft)] = [])), if_neg ho, hval]
    show db ++ (createLoop owner now
      [(0, { title := "call mom", due_dt := some "2025-07-15" })] [newId]).2.2 = _
    congr 1
  have hp15 : parse_date "2025-07-15" = some ⟨2025, 7, 15, 0, 0, 0⟩ := by decide
  have hp16 : parse_date "2025-07-16" = some ⟨2025, 7, 16, 0, 0, 0⟩ := by decide
  have hred15 : ∀ d : List TaskRow,
      get_tasks ⟨none, some "2025-07-15", none, none, none⟩ owner d =
        getTasksRun ⟨none, some "2025-07-15", none, none, none⟩ owner d none
          (some "2025-07-15T00:00:00") := by
    intro d
    unfold get_tasks getTasksDue
    rw [if_neg ho]
    show (match parse_date "2025-07-15" with
      | none => (⟨"error", some ("Invalid date format for due_dt: " ++ "2025-07-15" ++
          ". Use YYYY-MM-DD or YYYY-MM-DD HH:MM:SS"), none, none⟩ : GetResult)
      | some dd => getTasksRun _ owner d none (some (isoformat dd))) = _
    rw [hp15]
    simp [hiso]
  have hred16 : ∀ d : List TaskRow,
      get_tasks ⟨none, some "2025-07-16", none, none, none⟩ owner d =
        getTasksRun ⟨none, some "2025-07-16", none, none, none⟩ owner d none
          (some "2025-07-16T00:00:00") := by
    intro d
    unfold get_tasks getTasksDue
    rw [if_neg ho]
    show (match parse_date "2025-07-16" with
      | none => (⟨"error", some ("Invalid date format for due_dt: " ++ "2025-07-16" ++
          ". Use YYYY-MM-DD or YYYY-MM-DD HH:MM:SS"), none, none⟩ : GetResult)
      | some dd => getTasksRun _ owner d none (some (isoformat dd))) = _
    rw [hp16]
    simp [hiso16]
  refine ⟨hdb, ?_, ?_⟩
  · rw [hdb, hred15]
    refine ⟨_, rfl, ?_⟩
    apply List.mem_map_of_mem
    apply List.mem_filter.mpr
    refine ⟨List.mem_append_right _ (by simp), ?_⟩
    simp [rowMatches]
  · intro L t hL ht
    rw [hdb, hred16] at hL
    simp only [getTasksRun, Option.some.injEq] at hL
    subst hL
    obtain ⟨row, hrow, rfl⟩ := List.mem_map.mp ht
    obtain ⟨hmem, hpred⟩ := List.mem_filter.mp hrow
    rcases List.mem_append.mp hmem with h | h
    · exact hfresh row h
    · have hrow15 : row = ⟨newId, owner, "call mom", none, some "pending",
          some "2025-07-15T00:00:00", none, some 0, some 2, none, now, none⟩ := by
        simpa using h
      rw [hrow15] at hpred
      simp [rowMatches] at hpred

/-- Witness for `create_read_due_roundtrip` over an empty table. -/
theorem create_read_due_roundtrip_witness :
    (create_tasks [{ title := "call mom", due_dt := some "2025-07-15" }] "u1"
        ["id9"] "2025-07-10T00:00:00" []).2 =
      [] ++ [⟨"id9", "u1", "call mom", none, some "pending",
        some "2025-07-15T00:00:00", none, some 0, some 2, none,
        "2025-07-10T00:00:00", none⟩] ∧
    (∃ L, (get_tasks ⟨none, some "2025-07-15", none, none, none⟩ "u1"
        ((create_tasks [{ title := "call mom", due_dt := some "2025-07-15" }]
          "u1" ["id9"] "2025-07-10T00:00:00" []).2)).tasks = some L ∧
      formatRow ⟨"id9", "u1", "call mom", none, some "pending",
        some "2025-07-15T00:00:00", none, some 0, some 2, none,
        "2025-07-10T00:00:00", none⟩ ∈ L) ∧
    (∀ L t, (get_tasks ⟨none, some "2025-07-16", none, none, none⟩ "u1"
        ((create_tasks [{ title := "call mom", due_dt := some "2025-07-15" }]
          "u1" ["id9"] "2025-07-10T00:00:00" []).2)).tasks = some L → t ∈ L →
      t.task_id ≠ "id9") :=
  create_read_due_roundtrip "u1" "2025-07-10T00:00:00" "id9" [] (by decide)
    (by decide)

/-- Witness for `owner_scoping_crud` at a concrete two-user table: the Read
result of user u1 stems from u1's rows, an Update and a Delete aimed at
u2's row leave the foreign sublist unchanged and report the id as
not-found/not-owned. -/
theorem owner_scoping_crud_witness :
    (∃ row ∈ [⟨"00000000-0000-0000-0000-000000000001", "u1", "Mine", none,
        some "pending", none, none, some 0, some 2, none, "T0", none⟩,
      (⟨"00000000-0000-0000-0000-000000000002", "u2", "Other", none,
        some "pending", none, none, some 0, some 2, none, "T0", none⟩ : TaskRow)],
      row.user_id = "u1" ∧
      formatRow ⟨"00000000-0000-0000-0000-000000000001", "u1", "Mine", none,
        some "pending", none, none, some 0, some 2, none, "T0", none⟩ =
        formatRow row) ∧
    ((update_tasks
      [{ task_id := "00000000-0000-0000-0000-000000000002", title := some "X" }]
      "u1" "T1"
      [⟨"00000000-0000-0000-0000-000000000001", "u1", "Mine", none,
        some "pending", none, none, some 0, some 2, none, "T0", none⟩,
       ⟨"00000000-0000-0000-0000-000000000002", "u2", "Other", none,
        some "pending", none, none, some 0, some 2, none, "T0", none⟩]).2.filter
        (foreignRow "u1") =
      [⟨"00000000-0000-0000-0000-000000000001", "u1", "Mine", none,
        some "pending", none, none, some 0, some 2, none, "T0", none⟩,
       (⟨"00000000-0000-0000-0000-000000000002", "u2", "Other", none,
        some "pending", none, none, some 0, some 2, none, "T0", none⟩ :
          TaskRow)].filter (foreignRow "u1")) ∧
    (∃ res, (update_tasks
      [{ task_id := "00000000-0000-0000-0000-000000000002", title := some "X" }]
      "u1" "T1"
      [⟨"00000000-0000-0000-0000-000000000001", "u1", "Mine", none,
        some "pending", none, none, some 0, some 2, none, "T0", none⟩,
       ⟨"00000000-0000-0000-0000-000000000002", "u2", "Other", none,
        some "pending", none, none, some 0, some 2, none, "T0", none⟩]).1.results =
        some res ∧
      (⟨"00000000-0000-0000-0000-000000000002",
        "Task with ID " ++ "00000000-0000-0000-0000-000000000002" ++
          " not found or not owned by user"⟩ : FailEntry) ∈ res.failed_updates) ∧
    ((delete_tasks ["00000000-0000-0000-0000-000000000002"] "u1"
      [⟨"00000000-0000-0000-0000-000000000001", "u1", "Mine", none,
        some "pending", none, none, some 0, some 2, none, "T0", none⟩,
       ⟨"00000000-0000-0000-0000-000000000002", "u2", "Other", none,
        some "pending", none, none, some 0, some 2, none, "T0", none⟩]).2.filter
        (foreignRow "u1") =
      [⟨"00000000-0000-0000-0000-000000000001", "u1", "Mine", none,
        some "pending", none, none, some 0, some 2, none, "T0", none⟩,
       (⟨"00000000-0000-0000-0000-000000000002", "u2", "Other", none,
        some "pending", none, none, some 0, some 2, none, "T0", none⟩ :
          TaskRow)].filter (foreignRow "u1")) ∧
    (∃ res, (delete_tasks ["00000000-0000-0000-0000-000000000002"] "u1"
      [⟨"00000000-0000-0000-0000-000000000001", "u1", "Mine", none,
        some "pending", none, none, some 0, some 2, none, "T0", none⟩,
       ⟨"00000000-0000-0000-0000-000000000002", "u2", "Other", none,
        some "pending", none, none, some 0, some 2, none, "T0", none⟩]).1.results =
        some res ∧
      (⟨"00000000-0000-0000-0000-000000000002",
        "Task with ID " ++ "00000000-0000-0000-0000-000000000002" ++
          " not found or unauthorized"⟩ : FailEntry) ∈ res.failed_deletes) :=
  ⟨owner_scoping_crud.1 ⟨none, none, none, none, none⟩ "u1"
      [⟨"00000000-0000-0000-0000-000000000001", "u1", "Mine", none,
        some "pending", none, none, some 0, some 2, none, "T0", none⟩,
       ⟨"00000000-0000-0000-0000-000000000002", "u2", "Other", none,
        some "pending", none, none, some 0, some 2, none, "T0", none⟩]
      [formatRow ⟨"00000000-0000-0000-0000-000000000001", "u1", "Mine", none,
        some "pending", none, none, some 0, some 2, none, "T0", none⟩]
      (formatRow ⟨"00000000-0000-0000-0000-000000000001", "u1", "Mine", none,
        some "pending", none, none, some 0, some 2, none, "T0", none⟩)
      (by decide) (by decide),
   owner_scoping_crud.2.1
      [{ task_id := "00000000-0000-0000-0000-000000000002", title := some "X" }]
      "u1" "T1"
      [⟨"00000000-0000-0000-0000-000000000001", "u1", "Mine", none,
        some "pending", none, none, some 0, some 2, none, "T0", none⟩,
       ⟨"00000000-0000-0000-0000-000000000002", "u2", "Other", none,
        some "pending", none, none, some 0, some 2, none, "T0", none⟩],
   owner_scoping_crud.2.2.1
      [{ task_id := "00000000-0000-0000-0000-000000000002", title := some "X" }]
      "u1" "T1" "00000000-0000-0000-0000-000000000002"
      [⟨"00000000-0000-0000-0000-000000000001", "u1", "Mine", none,
        some "pending", none, none, some 0, some 2, none, "T0", none⟩,
       ⟨"00000000-0000-0000-0000-000000000002", "u2", "Other", none,
        some "pending", none, none, some 0, some 2, none, "T0", none⟩]
      (by decide) (by decide) (by decide) (by decide),
   owner_scoping_crud.2.2.2.1 ["00000000-0000-0000-0000-000000000002"] "u1"
      [⟨"00000000-0000-0000-0000-000000000001", "u1", "Mine", none,
        some "pending", none, none, some 0, some 2, none, "T0", none⟩,
       ⟨"00000000-0000-0000-0000-000000000002", "u2", "Other", none,
        some "pending", none, none, some 0, some 2, none, "T0", none⟩],
   owner_scoping_crud.2.2.2.2 ["00000000-0000-0000-0000-000000000002"] "u1"
      "00000000-0000-0000-0000-000000000002"
      [⟨"00000000-0000-0000-0000-000000000001", "u1", "Mine", none,
        some "pending", none, none, some 0, some 2, none, "T0", none⟩,
       ⟨"00000000-0000-0000-0000-000000000002", "u2", "Other", none,
        some "pending", none, none, some 0, some 2, none, "T0", none⟩]
      (by decide) (by decide) (by decide) (by decide)⟩

/-! ## Embedding sanity checks (standard test vectors) -/

theorem parse_date_vectors :
    parse_date "2025-07-15" = some ⟨2025, 7, 15, 0, 0, 0⟩ ∧
    parse_date "2025-07-15 08:30:00" = some ⟨2025, 7, 15, 8, 30, 0⟩ ∧
    parse_date "2025-13-01" = none ∧
    parse_date "2025-02-30" = none ∧
    parse_date "2024-02-29" = some ⟨2024, 2, 29, 0, 0, 0⟩ ∧
    parse_date "" = none ∧
    parse_date "tomorrow" = none ∧
    isoformat ⟨2025, 7, 15, 0, 0, 0⟩ = "2025-07-15T00:00:00" ∧
    validate_uuid "00000000-0000-0000-0000-000000000000" = true ∧
    validate_uuid "urn:uuid:12345678-1234-5678-1234-567812345678" = true ∧
    validate_uuid "not-a-uuid" = false := by
  decide

set_option maxRecDepth 100000 in
theorem sha256_fips_vector_empty : hexOfBytes (sha256 []) =
    "e3b0c44298fc1c149afbf4c8996fb92427ae41e4649b934ca495991b7852b855" := by
  decide

set_option maxRecDepth 100000 in
theorem sha256_fips_vector_abc : hexOfBytes (sha256 (strBytes "abc")) =
    "ba7816bf8f01cfea414140de5dae2223b00361a396177a9cb410ff61f20015ad" := by
  decide

set_option maxRecDepth 100000 in
theorem hmac_rfc4231_case2 :
    hexHmac "Jefe" (strBytes "what do ya want for nothing?") =
    "5bdcc146bf60754e6a042426089575c75a003f089d2739839dec58b964ec3843" := by
  decide

end Tasky
